import Mathlib

/-!
Shallow embedding of the `simple-rag` question-processing pipeline
(`src/backend/services/rag.ts`, `src/backend/services/chunking.js`,
`src/unnamed/part_007` = the vector service) in Lean 4.

Modelling conventions:
* JavaScript strings are modelled as `List Char` (`Str`), and the JS string
  operations used by the code (`trim`, `toLowerCase`, `split(/\s+/)`,
  `includes`, `indexOf`, `lastIndexOf`, `substring`, anchored/unanchored
  regex `replace` for the particular fixed regexes in the source) are given
  explicit executable models below.
* JavaScript numbers are modelled as `ℚ` (the numeric computations of the
  service stay far from any binary-float rounding boundary at every input
  used in a theorem below, so rational arithmetic is a faithful model there).
* `async` external calls (embedding endpoint, vector search, chat
  completion) are modelled as oracle inputs, and `throw`/`try`/`catch` as
  `Except`.
-/

namespace SimpleRag

/-- JS strings as lists of characters. -/
abbrev Str := List Char

/-- Turn a Lean string literal into the `Str` model. -/
def str (s : String) : Str := s.toList

/-- Turn a list of Lean string literals into `Str`s. -/
def strs (l : List String) : List Str := l.map String.toList

/-- The JS regex class `\s` restricted to the characters that can actually
occur here: space, tab, LF, CR, vertical tab, form feed, NBSP.  (JS `\s`
also contains more exotic Unicode space characters; none of the fixed
lexicons/markers of the source contain them.) -/
def isJsSpace (c : Char) : Bool :=
  c = ' ' || c = '\t' || c = '\n' || c = '\x0d' || c = '\x0b' || c = '\x0c' ||
  c = '\u00A0'

/-- `String.prototype.toLowerCase`, character-wise, covering ASCII and the
Latin-1 uppercase letters (enough for the French lexicons of the source). -/
def jsLowerChar (c : Char) : Char :=
  if ('A' ≤ c ∧ c ≤ 'Z') ∨ (('À' ≤ c ∧ c ≤ 'Þ') ∧ c ≠ '×') then
    Char.ofNat (c.toNat + 32)
  else c

/-- `toLowerCase` on a whole string. -/
def jsLower (s : Str) : Str := s.map jsLowerChar

/-- Drop trailing characters satisfying `p`. -/
def dropRightWhile (p : Char → Bool) (s : Str) : Str :=
  (s.reverse.dropWhile p).reverse

/-- `String.prototype.trim` (both ends). -/
def jsTrim (s : Str) : Str :=
  dropRightWhile isJsSpace (s.dropWhile isJsSpace)

/-- `needle` occurs as a contiguous substring of `hay`
(`String.prototype.includes`). -/
def containsSub (needle hay : Str) : Bool :=
  match hay with
  | [] => needle.isEmpty
  | _ :: rest => needle.isPrefixOf hay || containsSub needle rest

/-- `String.prototype.endsWith`. -/
def endsWith (suffix s : Str) : Bool :=
  suffix.reverse.isPrefixOf s.reverse

/-- `String.prototype.indexOf` for a single character: index of the first
occurrence, `none` when absent (JS returns `-1`). -/
def idxOfChar (c : Char) (s : Str) : Option Nat :=
  match s with
  | [] => none
  | d :: rest => if d = c then some 0 else (idxOfChar c rest).map (· + 1)

/-- `String.prototype.lastIndexOf` for a single character. -/
def lastIdxOfChar (c : Char) (s : Str) : Option Nat :=
  (idxOfChar c s.reverse).map (fun i => s.length - 1 - i)

/-- `str.split(/\s+/)` with exact JS semantics: pieces between maximal
whitespace runs, including an empty leading piece when the string starts
with whitespace and an empty trailing piece when it ends with whitespace;
`""` splits to `[""]`.  `st = none` encodes "a whitespace run was just
consumed (its piece is already emitted)". -/
def splitWsGo : Str → Option Str → List Str
  | [], none => [[]]
  | [], some cur => [cur.reverse]
  | c :: rest, none =>
      if isJsSpace c then splitWsGo rest none else splitWsGo rest (some [c])
  | c :: rest, some cur =>
      if isJsSpace c then cur.reverse :: splitWsGo rest none
      else splitWsGo rest (some (c :: cur))

/-- `str.split(/\s+/)`. -/
def jsSplitWs (s : Str) : List Str := splitWsGo s (some [])

/-- `question.split(/\s+/).filter(Boolean).length`
(`VectorService.getAdaptiveThreshold`). -/
def wordCount (s : Str) : Nat :=
  ((jsSplitWs s).filter (fun w => !w.isEmpty)).length

/-- `Array.prototype.join(sep)`. -/
def joinSep (sep : Str) : List Str → Str
  | [] => []
  | [x] => x
  | x :: rest => x ++ sep ++ joinSep sep rest

/-- `Math.round` on the ℚ model of a JS number (JS rounds half towards
+∞, which is `⌊x + 1/2⌋`). -/
def jsRound (q : ℚ) : ℤ := ⌊q + 1/2⌋

/-!  ## Token estimation and token-budget enforcement

`ChunkingService.estimateTokens` (src/backend/services/chunking.js,
second variant, lines 187–195) and the identical
`RAGService.estimateTokens` (src/backend/services/rag.ts lines 724–730). -/

/-- `estimateTokens(text)`:
`if (!text) return 0; return Math.ceil((words * 1.3 + chars / 4) / 2)` with
`words = text.split(/\s+/).length` and `chars = text.length`. -/
def estimateTokens (text : Str) : ℤ :=
  if text.isEmpty then 0
  else
    let words : ℚ := ((jsSplitWs text).length : ℚ)
    let chars : ℚ := (text.length : ℚ)
    ⌈(words * (13/10) + chars / 4) / 2⌉

/-- `this.MAX_CONTEXT_TOKENS = 12000` (RAGService constructor). -/
def MAX_CONTEXT_TOKENS : ℤ := 12000

/-- `this.MAX_CHUNKS_TO_RETRIEVE = 4`. -/
def MAX_CHUNKS_TO_RETRIEVE : Nat := 4

/-- `this.MAX_CHUNK_SIZE_TOKENS = 1500`. -/
def MAX_CHUNK_SIZE_TOKENS : ℤ := 1500

/-- The continuation marker `' [suite...]'` appended by `truncateChunk`. -/
def continuationMarker : Str := str " [suite...]"

/-- `RAGService.truncateChunk(text, maxTokens)` (rag.ts lines 404–426).
`maxChars = maxTokens * 4`; a text at or below `maxChars` characters is
returned unchanged; otherwise the first `maxChars` characters are kept,
cut back to the last sentence end (`.`, `!`, `?`, `\n`) when that end lies
beyond 80% of the window, and the continuation marker is appended. -/
def truncateChunk (text : Str) (maxTokens : Nat) : Str :=
  let maxChars := maxTokens * 4
  if text.length ≤ maxChars then text
  else
    let truncated := text.take maxChars
    let lastSentenceEnd : ℤ :=
      max (max ((lastIdxOfChar '.' truncated).elim (-1) (·))
               ((lastIdxOfChar '!' truncated).elim (-1) (·)))
          (max ((lastIdxOfChar '?' truncated).elim (-1) (·))
               ((lastIdxOfChar '\n' truncated).elim (-1) (·)))
    if (lastSentenceEnd : ℚ) > (maxChars : ℚ) * (8/10) then
      truncated.take (lastSentenceEnd + 1).toNat ++ continuationMarker
    else
      truncated ++ continuationMarker

/-- Payload of a retrieved chunk (`{score, payload:{text,title,author,date}}`). -/
structure Payload where
  text : Str
  title : Str
  author : Str
  date : Str
  deriving DecidableEq, Repr

/-- One vector-search hit. -/
structure Chunk where
  score : ℚ
  payload : Payload
  deriving DecidableEq, Repr

/-- `RAGService.filterResultsByTokenLimit(searchResults)` (rag.ts lines
368–396): walk the hits in rank order, truncate any chunk whose estimated
tokens exceed `MAX_CHUNK_SIZE_TOKENS`, accumulate the running total of
estimated tokens and stop (not skip) at the first chunk that would push the
total past `MAX_CONTEXT_TOKENS`. -/
def filterResultsByTokenLimitGo : List Chunk → ℤ → List Chunk
  | [], _ => []
  | r :: rest, totalTokens =>
      let chunkText := r.payload.text
      let chunkTokens := estimateTokens chunkText
      let newText :=
        if chunkTokens > MAX_CHUNK_SIZE_TOKENS then
          truncateChunk chunkText MAX_CHUNK_SIZE_TOKENS.toNat
        else chunkText
      let r' : Chunk := { r with payload := { r.payload with text := newText } }
      let newTotal := totalTokens + estimateTokens newText
      if newTotal ≤ MAX_CONTEXT_TOKENS then
        r' :: filterResultsByTokenLimitGo rest newTotal
      else []

/-- Entry point of the filter (`totalTokens` starts at 0). -/
def filterResultsByTokenLimit (searchResults : List Chunk) : List Chunk :=
  filterResultsByTokenLimitGo searchResults 0

/-- `RAGService.buildContext(searchResults)` (rag.ts lines 694–698):
`[Source N]\n` headers joined by `\n\n---\n\n`. -/
def buildContext (searchResults : List Chunk) : Str :=
  joinSep (str "\n\n---\n\n")
    ((searchResults.enum.map
      (fun hit => str "[Source " ++ str (toString (hit.1 + 1)) ++ str "]\n"
        ++ hit.2.payload.text)))

/-!  ## Configuration and conversation context

`appConfig` (src/unnamed/part_002) fields consumed by the RAG service.
Absent/undefined string values are modelled as the empty string (JS treats
both as falsy in every use site below). -/

/-- The configuration surface consumed by the orchestrator. -/
structure Config where
  appTheme : Str
  welcomeMessage : Str
  suggestedTopics : List Str
  otherTopicAllowed : List Str
  offTopicRedirectLine : Str
  minScore : ℚ
  fallbackScore : ℚ
  deriving DecidableEq, Repr

/-- `ConversationContext` (rag.ts lines 9–14); undefined fields ↦ `[]`. -/
structure Ctx where
  lastTopic : Str := []
  lastAnswer : Str := []
  lastQuestion : Str := []
  deriving DecidableEq, Repr

/-- `this.theme = (appConfig.appTheme || '').trim()` (constructor). -/
def serviceTheme (cfg : Config) : Str := jsTrim cfg.appTheme

/-- `this.lastTopicHints = (appConfig.suggestedTopics || []).filter(Boolean)`. -/
def lastTopicHints (cfg : Config) : List Str :=
  cfg.suggestedTopics.filter (fun t => !t.isEmpty)

/-- `const theme = this.theme || appConfig.appTheme` (used by the message
builders): the trimmed theme when non-empty, else the raw config value. -/
def effectiveTheme (cfg : Config) : Str :=
  if (serviceTheme cfg).isEmpty then cfg.appTheme else serviceTheme cfg

/-!  ## Intent-triage lexicons (rag.ts) -/

/-- `RAGService.isGreeting` (lines 565–568). -/
def isGreeting (question : Str) : Bool :=
  (strs ["salut", "bonjour", "hello", "coucou"]).contains
    (jsTrim (jsLower question))

/-- `RAGService.isSmallTalk` (lines 570–578). -/
def isSmallTalk (question : Str) : Bool :=
  let text := jsLower (jsTrim question)
  if text.isEmpty then false
  else
    (strs ["ça va", "ca va", "comment ça va", "comment ca va",
           "comment vas-tu", "comment vas tu", "merci", "merci beaucoup",
           "ok merci", "ok", "daccord", "d\x27accord", "super"]).contains text

/-- `RAGService.isDistanceQuestion` (lines 584–591). -/
def isDistanceQuestion (question : Str) : Bool :=
  let text := jsLower (jsTrim question)
  if text.isEmpty then false
  else if containsSub (str "distance entre") text then true
  else if containsSub (str "distance de") text && containsSub (str "à") text then true
  else if containsSub (str "combien de km") text then true
  else false

/-- `RAGService.isVagueQuestion` (lines 264–285): empty or trimmed length
≤ 3, or an exact match in the vague lexicon. -/
def isVagueQuestion (question : Str) : Bool :=
  let text := jsLower (jsTrim question)
  if text.isEmpty then true
  else if text.length ≤ 3 then true
  else
    (strs ["tu peux me parler de quoi", "tu peux parler de quoi",
           "de quoi peux-tu parler", "tu sais quoi", "dis-moi quelque chose",
           "parle moi de quoi", "parle moi de", "parle de", "tu connais",
           "tu sais", "c est quoi", "c\x27est quoi"]).contains text

/-- `RAGService.isOtherTopicAllowed(kind)` (lines 593–596). -/
def isOtherTopicAllowed (cfg : Config) (kind : Str) : Bool :=
  (cfg.otherTopicAllowed.map jsLower).contains (jsLower kind)

/-!  ## Acknowledgement stripping / rewriting (rag.ts lines 224–262, 347–361) -/

/-- The ordered ack vocabulary scanned by `stripLeadingAck`. -/
def ackStripList : List Str :=
  strs ["ok", "okay", "okey", "oui", "daccord", "d\x27accord",
        "vas y", "va y", "vas-y"]

/-- Inner loop of `stripLeadingAck`: first matching entry wins. -/
def stripLeadingAckGo (raw lower : Str) : List Str → Str
  | [] => raw
  | p :: rest =>
      if lower = p then raw
      else if (p ++ [' ']).isPrefixOf lower then jsTrim (raw.drop p.length)
      else stripLeadingAckGo raw lower rest

/-- `RAGService.stripLeadingAck(text)`. -/
def stripLeadingAck (text : Str) : Str :=
  let raw := jsTrim text
  if raw.isEmpty then raw
  else stripLeadingAckGo raw (jsLower raw) ackStripList

/-- `RAGService.pickDeepenHint(context)` (lines 224–229). -/
def pickDeepenHint (cfg : Config) (ctx : Ctx) : Str :=
  if !ctx.lastTopic.isEmpty then ctx.lastTopic
  else if !ctx.lastQuestion.isEmpty ∧ ctx.lastQuestion.length > 6 then
    ctx.lastQuestion
  else if !(lastTopicHints cfg).isEmpty then (lastTopicHints cfg).headI
  else []

/-- Result of `rewriteIfAck` (rag.ts lines 16–20). -/
structure RewriteResult where
  text : Str
  baseQuestion : Option Str := none
  focus : Option Str := none
  deriving DecidableEq, Repr

/-- The acknowledgement vocabulary of `rewriteIfAck`. -/
def ackSet : List Str :=
  strs ["oui", "ok", "okay", "okey", "daccord", "d\x27accord", "va y",
        "vas y", "vas-y", "continue", "oui vas y", "oui vas-y", "go",
        "encore", "plus", "approfondis", "développe", "developpe",
        "explique", "détaille", "detaille"]

/-- `RAGService.rewriteIfAck(question, context)` (lines 231–262). -/
def rewriteIfAck (cfg : Config) (ctx : Ctx) (question : Str) : RewriteResult :=
  let text := jsTrim question
  if text.isEmpty then { text := text }
  else
    let normalized := jsLower text
    if text.length ≤ 20 ∧ ackSet.contains normalized then
      let baseQuestion :=
        if !ctx.lastQuestion.isEmpty then ctx.lastQuestion
        else if !ctx.lastTopic.isEmpty then ctx.lastTopic else []
      let hint := pickDeepenHint cfg ctx
      if !hint.isEmpty then
        { text := str "Explique en détail : " ++ hint
          baseQuestion := some baseQuestion, focus := some hint }
      else if !ctx.lastAnswer.isEmpty then
        { text := str "Explique en détail ce que tu viens d\x27expliquer."
          baseQuestion := some baseQuestion, focus := some [] }
      else { text := question }
    else { text := question }

/-- The question-refinement prefix of `processQuestion` (rag.ts lines
45–50): strip a leading ack, rewrite a bare ack, and append the focus
instruction when a focus was produced. -/
def refineQuestion (cfg : Config) (ctx : Ctx) (question : Str) :
    RewriteResult × Str :=
  let normalizedQuestion := stripLeadingAck question
  let rewritten := rewriteIfAck cfg ctx normalizedQuestion
  let refined0 := if rewritten.text.isEmpty then question else rewritten.text
  let refined :=
    if !(rewritten.focus.getD []).isEmpty then
      refined0 ++ str "\nFocalise uniquement sur: " ++ rewritten.focus.getD []
        ++ str ". Évite un résumé général."
    else refined0
  (rewritten, refined)

/-!  ## Guidance / welcome message builders (rag.ts lines 287–345, 598–610) -/

/-- `RAGService.cleanTopic(text)` (lines 328–345). -/
def cleanTopic (text : Str) : Str :=
  let raw := jsTrim text
  if raw.isEmpty then str "ce point"
  else
    let lower := jsLower raw
    let badList :=
      strs ["parle", "parle moi", "parle-moi", "explique", "explique moi",
            "explique-moi", "dis moi", "dis-moi", "de quoi", "tu peux",
            "peux-tu", "pouvez-vous", "tu connais", "tu sais"]
    let greetings :=
      strs ["salut", "bonjour", "hello", "coucou", "ça va", "ca va", "merci"]
    if greetings.contains lower then str "ce point"
    else if badList.any (fun p => p.isPrefixOf lower) then str "ce point"
    else raw

/-- `RAGService.buildGuidanceAnswer(reason, context)` (lines 287–308). -/
def buildGuidanceAnswer (cfg : Config) (reason : Str) (ctx : Ctx) : Str :=
  let theme := effectiveTheme cfg
  let topics := cfg.suggestedTopics.filter (fun t => !t.isEmpty)
  let topicLine :=
    if !topics.isEmpty then
      str "Je peux t’aider sur : " ++ joinSep (str ", ") (topics.take 5)
        ++ str "."
    else
      str "Je peux t’aider sur un résumé, une définition, une obligation, ou une procédure précise."
  let focusLine :=
    if !theme.isEmpty then
      str "Je suis spécialisé sur " ++ theme
        ++ str " d’après les documents disponibles."
    else str "Je réponds uniquement à partir des documents disponibles."
  let lastTopic :=
    if !ctx.lastQuestion.isEmpty then
      str "Si tu veux, je peux détailler " ++ cleanTopic ctx.lastQuestion
        ++ str "."
    else if !ctx.lastTopic.isEmpty then
      str "Si tu veux, je peux t’en dire plus sur " ++ ctx.lastTopic
    else []
  let pre :=
    if reason = str "vague" then
      str "Pour t’aider à démarrer, voici des pistes simples."
    else
      str "Je n’ai pas trouvé ce point précis dans les documents, mais je peux aider sur ces sujets."
  jsTrim (focusLine ++ [' '] ++ pre ++ [' '] ++ topicLine ++ [' '] ++ lastTopic)

/-- `RAGService.buildWelcomeMessage()` (lines 310–326). -/
def buildWelcomeMessage (cfg : Config) : Str :=
  let theme := effectiveTheme cfg
  let topics := cfg.suggestedTopics.filter (fun t => !t.isEmpty)
  let focusLine :=
    if !(jsTrim cfg.welcomeMessage).isEmpty then jsTrim cfg.welcomeMessage
    else if !theme.isEmpty then
      str "Bonjour ! Je suis votre assistant spécialisé en " ++ theme ++ str "."
    else str "Bonjour ! Je suis votre assistant spécialisé."
  let topicLine :=
    if !topics.isEmpty then joinSep (str ", ") (topics.take 4) ++ str "."
    else []
  let fallbackLine :=
    if topics.isEmpty then
      str "Je peux t’aider avec un résumé, une définition, une obligation ou une procédure précise."
    else []
  let base :=
    jsTrim (joinSep [' '] (([focusLine, topicLine]).filter (fun l => !l.isEmpty)))
  jsTrim (base ++ [' '] ++ fallbackLine
    ++ str " Dis-moi ce que tu veux savoir aujourd’hui et je t’explique simplement.")

/-- `RAGService.buildOffTopicRedirect()` (lines 598–610). -/
def buildOffTopicRedirect (cfg : Config) : Str :=
  let theme := effectiveTheme cfg
  let topics := (cfg.suggestedTopics.filter (fun t => !t.isEmpty)).take 4
  let hint :=
    if !topics.isEmpty then
      str "Si tu veux, je peux plutôt t’aider sur " ++ joinSep (str ", ") topics
        ++ str "."
    else str "Si tu veux, pose-moi une question en lien avec mes documents."
  let humorLine :=
    if !(jsTrim cfg.offTopicRedirectLine).isEmpty then
      jsTrim cfg.offTopicRedirectLine
    else if !theme.isEmpty then
      str "Je ne pourrai pas tenir longtemps sur ce sujet, par contre je suis à l’aise sur "
        ++ theme ++ str "."
    else
      str "Je ne pourrai pas tenir longtemps sur ce sujet, mais je peux aider sur les sujets du corpus."
  jsTrim (humorLine ++ [' '] ++ hint)

/-!  ## Arithmetic triage: `RAGService.trySolveMath` (rag.ts lines 654–687)

The source strips filler words with a chain of `replace` calls, extracts a
candidate expression, validates it against a character whitelist, and
evaluates it with `Function('"use strict"; return (...)')`, returning the
result only when it is a finite number.  The evaluator below models the JS
arithmetic grammar over `+ - * / ( )` and decimal literals: `++`/`--`
punctuators, legacy-octal-looking literals (strict mode), and division by
zero (`Infinity`/`NaN`, rejected by `Number.isFinite`) all end in `none`,
exactly as the source ends in `null` there. -/

/-- Match, at the start of `s`, the fixed regex fragment
`w₁\s+w₂\s+…\s+wₙ\s+` (literal words joined and terminated by greedy
whitespace runs); returns the matched length. -/
def matchLexAt : List Str → Str → Option Nat
  | [], _ => some 0
  | w :: ws, s =>
      if w.isPrefixOf s then
        let rest := s.drop w.length
        let run := rest.takeWhile isJsSpace
        if run.isEmpty then none
        else (matchLexAt ws (rest.drop run.length)).map
          (· + w.length + run.length)
      else none

/-- Position and length of the first match of `w₁\s+…\s+wₙ\s+` in `s`. -/
def findLexFrom (words : List Str) : Str → Option (Nat × Nat)
  | [] => (matchLexAt words []).map (fun n => (0, n))
  | s@(_ :: rest) =>
      match matchLexAt words s with
      | some n => some (0, n)
      | none => (findLexFrom words rest).map (fun p => (p.1 + 1, p.2))

/-- `str.replace(/w₁\s+…\s+wₙ\s+/, '')` (unanchored, first match only). -/
def replaceFirstLex (words : List Str) (s : Str) : Str :=
  match findLexFrom words s with
  | some (p, n) => s.take p ++ s.drop (p + n)
  | none => s

/-- `str.replace(/^w₁\s+…\s+wₙ\s+/, '')` (anchored). -/
def anchoredStrip (words : List Str) (s : Str) : Str :=
  match matchLexAt words s with
  | some n => s.drop n
  | none => s

/-- `str.replace(/=?\s*$/g, '')`: the first match of `=?\s*$` is the last
`=` when only whitespace follows it, else the trailing whitespace run; the
global flag only adds an empty match at the end. -/
def stripEqEnd (s : Str) : Str :=
  let t1 := dropRightWhile isJsSpace s
  if endsWith (str "=") t1 then t1.dropLast else t1

/-- The whitelist `[0-9+\-*/().\s]` used by `trySolveMath`. -/
def isMathChar (c : Char) : Bool :=
  c.isDigit || c = '+' || c = '-' || c = '*' || c = '/' || c = '(' ||
  c = ')' || c = '.' || isJsSpace c

/-- The candidate-extraction class `[-+*/()0-9\s]` (no dot). -/
def isMathRunChar (c : Char) : Bool :=
  c.isDigit || c = '+' || c = '-' || c = '*' || c = '/' || c = '(' ||
  c = ')' || isJsSpace c

/-- `str.match(/[-+*\/()0-9\s]{3,}/)?.[0] || ''`: the first maximal run of
at least three candidate characters. -/
def firstRunGe3 : Str → Str
  | [] => []
  | s@(_ :: rest) =>
      let run := s.takeWhile isMathRunChar
      if run.length ≥ 3 then run else firstRunGe3 rest

/-- Tokens of the JS arithmetic subset reachable through the whitelist. -/
inductive MTok where
  | num (q : ℚ)
  | plus | minus | times | divide | lparen | rparen
  deriving DecidableEq, Repr

/-- Numeric value of a digit list. -/
def digitsVal (ds : Str) : ℕ :=
  ds.foldl (fun acc c => acc * 10 + (c.toNat - '0'.toNat)) 0

/-- Lex a decimal literal `\d+(\.\d*)? | \.\d+` starting at `s` (already
known to start with a digit or a dot followed by a digit); returns the
value and the rest.  Strict mode rejects `0` followed by another digit. -/
def lexNumber (s : Str) : Option (ℚ × Str) :=
  let intDigits := s.takeWhile Char.isDigit
  let rest := s.drop intDigits.length
  if intDigits.length ≥ 2 ∧ intDigits.headI = '0' then none
  else
    match rest with
    | '.' :: rest2 =>
        let fracDigits := rest2.takeWhile Char.isDigit
        if intDigits.isEmpty ∧ fracDigits.isEmpty then none
        else
          some ((digitsVal intDigits : ℚ) +
            (digitsVal fracDigits : ℚ) / (10 : ℚ) ^ fracDigits.length,
            rest2.drop fracDigits.length)
    | _ =>
        if intDigits.isEmpty then none
        else some ((digitsVal intDigits : ℚ), rest)

/-- Tokenizer worker; the fuel is decremented on every step and every step
consumes at least one character, so `length + 1` fuel (as supplied by
`lexMath`) can never run out.  `++` and `--` are (in)decrement punctuators
in JS, which can never appear legally here, so they lex to a failure just
as they end in a `SyntaxError` in the source. -/
def lexMathF : Nat → Str → Option (List MTok)
  | 0, _ => none
  | _, [] => some []
  | fuel + 1, c :: rest =>
      if isJsSpace c then lexMathF fuel rest
      else if c = '+' then
        match rest with
        | '+' :: _ => none
        | _ => (lexMathF fuel rest).map (MTok.plus :: ·)
      else if c = '-' then
        match rest with
        | '-' :: _ => none
        | _ => (lexMathF fuel rest).map (MTok.minus :: ·)
      else if c = '*' then (lexMathF fuel rest).map (MTok.times :: ·)
      else if c = '/' then (lexMathF fuel rest).map (MTok.divide :: ·)
      else if c = '(' then (lexMathF fuel rest).map (MTok.lparen :: ·)
      else if c = ')' then (lexMathF fuel rest).map (MTok.rparen :: ·)
      else if c.isDigit ∨ (c = '.' ∧ rest.headI.isDigit) then
        match lexNumber (c :: rest) with
        | some (q, rest') =>
            match lexMathF fuel rest' with
            | some toks => some (MTok.num q :: toks)
            | none => none
        | none => none
      else none

/-- Tokenize a whole candidate string. -/
def lexMath (s : Str) : Option (List MTok) := lexMathF (s.length + 1) s

/-!  Recursive-descent evaluation of the JS arithmetic grammar
(`AdditiveExpression` over `MultiplicativeExpression` over
`UnaryExpression` over `PrimaryExpression`), left-associative, with unary
`+`/`-`.  Division by zero yields `Infinity`/`NaN` in JS, which
`trySolveMath` rejects via `Number.isFinite`; the evaluator returns `none`
there directly.  The fuel only bounds the recursion depth; every
production either consumes a token or moves one level down a grammar
chain of height 5, so the `8 * tokens + 16` fuel supplied by
`evalJsArith` can never run out. -/

mutual

/-- `PrimaryExpression`: a literal or a parenthesised expression. -/
def parsePrimaryF : Nat → List MTok → Option (ℚ × List MTok)
  | 0, _ => none
  | fuel + 1, toks =>
      match toks with
      | MTok.num q :: rest => some (q, rest)
      | MTok.lparen :: rest =>
          match parseExprF fuel rest with
          | some (v, MTok.rparen :: rest2) => some (v, rest2)
          | _ => none
      | _ => none

/-- `UnaryExpression`: chains of unary `+`/`-`. -/
def parseUnaryF : Nat → List MTok → Option (ℚ × List MTok)
  | 0, _ => none
  | fuel + 1, toks =>
      match toks with
      | MTok.plus :: rest => parseUnaryF fuel rest
      | MTok.minus :: rest => (parseUnaryF fuel rest).map (fun p => (-p.1, p.2))
      | _ => parsePrimaryF fuel toks

/-- `MultiplicativeExpression`. -/
def parseTermF : Nat → List MTok → Option (ℚ × List MTok)
  | 0, _ => none
  | fuel + 1, toks =>
      match parseUnaryF fuel toks with
      | some (v, rest) => parseTermLoopF fuel v rest
      | none => none

/-- Left-associative `* /` loop. -/
def parseTermLoopF : Nat → ℚ → List MTok → Option (ℚ × List MTok)
  | 0, _, _ => none
  | fuel + 1, acc, toks =>
      match toks with
      | MTok.times :: rest =>
          match parseUnaryF fuel rest with
          | some (v, rest2) => parseTermLoopF fuel (acc * v) rest2
          | none => none
      | MTok.divide :: rest =>
          match parseUnaryF fuel rest with
          | some (v, rest2) =>
              if v = 0 then none else parseTermLoopF fuel (acc / v) rest2
          | none => none
      | _ => some (acc, toks)

/-- `AdditiveExpression`. -/
def parseExprF : Nat → List MTok → Option (ℚ × List MTok)
  | 0, _ => none
  | fuel + 1, toks =>
      match parseTermF fuel toks with
      | some (v, rest) => parseExprLoopF fuel v rest
      | none => none

/-- Left-associative `+ -` loop. -/
def parseExprLoopF : Nat → ℚ → List MTok → Option (ℚ × List MTok)
  | 0, _, _ => none
  | fuel + 1, acc, toks =>
      match toks with
      | MTok.plus :: rest =>
          match parseTermF fuel rest with
          | some (v, rest2) => parseExprLoopF fuel (acc + v) rest2
          | none => none
      | MTok.minus :: rest =>
          match parseTermF fuel rest with
          | some (v, rest2) => parseExprLoopF fuel (acc - v) rest2
          | none => none
      | _ => some (acc, toks)

end

/-- `Function('"use strict"; return (<candidate>);')()` followed by the
`Number.isFinite` check: evaluate the candidate as a JS arithmetic
expression, `none` on any syntax error or non-finite result. -/
def evalJsArith (s : Str) : Option ℚ :=
  match lexMath s with
  | none => none
  | some toks =>
      match parseExprF (8 * toks.length + 16) toks with
      | some (v, []) => some v
      | _ => none

/-- `RAGService.trySolveMath(question)` (rag.ts lines 654–687). -/
def trySolveMath (question : Str) : Option ℚ :=
  let raw := jsTrim (jsLower question)
  if raw.isEmpty then none
  else
    let cleaned :=
      jsTrim (stripEqEnd
        (replaceFirstLex (strs ["combien", "cela", "fait"])
          (replaceFirstLex (strs ["combien", "ça", "fait"])
            (replaceFirstLex (strs ["combien", "faire"])
              (replaceFirstLex (strs ["combien", "fais"])
                (replaceFirstLex (strs ["combien", "fait"])
                  (anchoredStrip (strs ["tu", "sais"])
                    (anchoredStrip (strs ["tu", "connais"])
                      (anchoredStrip (strs ["et"]) raw)))))))))
    let mathCandidate :=
      if !cleaned.isEmpty ∧ cleaned.all isMathChar then cleaned
      else jsTrim (firstRunGe3 raw)
    if !mathCandidate.any Char.isDigit then none
    else if !(!mathCandidate.isEmpty ∧ mathCandidate.all isMathChar) then none
    else if cleaned.length > 80 then none
    else evalJsArith mathCandidate

/-!  ## JSON model (`JSON.parse`) and `RAGService.parseAnswerJson`

`parseAnswerJson` (rag.ts lines 737–754) slices the text from the first
`{` to the last `}` and hands the slice to `JSON.parse`.  The parser below
implements the JSON grammar (RFC 8259 as implemented by `JSON.parse`):
values, objects, arrays, strings with escapes, numbers, `true/false/null`,
and rejects any trailing non-whitespace input. -/

/-- JSON values. -/
inductive JVal where
  | jnull
  | jbool (b : Bool)
  | jnum (q : ℚ)
  | jstr (s : Str)
  | jarr (xs : List JVal)
  | jobj (fields : List (Str × JVal))

/-- JSON insignificant whitespace (space, tab, LF, CR only). -/
def isJsonWs (c : Char) : Bool :=
  c = ' ' || c = '\t' || c = '\n' || c = '\x0d'

/-- Skip JSON whitespace. -/
def skipJsonWs (s : Str) : Str := s.dropWhile isJsonWs

/-- Hex digit value. -/
def hexVal (c : Char) : Option Nat :=
  if c.isDigit then some (c.toNat - '0'.toNat)
  else if 'a' ≤ c ∧ c ≤ 'f' then some (c.toNat - 'a'.toNat + 10)
  else if 'A' ≤ c ∧ c ≤ 'F' then some (c.toNat - 'A'.toNat + 10)
  else none

/-- Parse exactly four hex digits. -/
def parseHex4 : Str → Option (Nat × Str)
  | a :: b :: c :: d :: rest =>
      match hexVal a, hexVal b, hexVal c, hexVal d with
      | some x, some y, some z, some w =>
          some (((x * 16 + y) * 16 + z) * 16 + w, rest)
      | _, _, _, _ => none
  | _ => none

/-- Parse a JSON string body (after the opening quote) up to and including
the closing quote.  Every step consumes at least one character, so the
`length + 1` fuel supplied by `parseJStr` can never run out.  (`\uXXXX`
escapes denoting surrogate halves are approximated by `Char.ofNat`'s
fallback; no lexicon or theorem below involves them.) -/
def parseJStrF : Nat → Str → Option (Str × Str)
  | 0, _ => none
  | _, [] => none
  | fuel + 1, c :: rest =>
      if c = '"' then some ([], rest)
      else if c = '\\' then
        match rest with
        | 'n' :: r => (parseJStrF fuel r).map (fun p => ('\n' :: p.1, p.2))
        | 't' :: r => (parseJStrF fuel r).map (fun p => ('\t' :: p.1, p.2))
        | 'r' :: r => (parseJStrF fuel r).map (fun p => ('\x0d' :: p.1, p.2))
        | 'b' :: r => (parseJStrF fuel r).map (fun p => ('\x08' :: p.1, p.2))
        | 'f' :: r => (parseJStrF fuel r).map (fun p => ('\x0c' :: p.1, p.2))
        | '"' :: r => (parseJStrF fuel r).map (fun p => ('"' :: p.1, p.2))
        | '\\' :: r => (parseJStrF fuel r).map (fun p => ('\\' :: p.1, p.2))
        | '/' :: r => (parseJStrF fuel r).map (fun p => ('/' :: p.1, p.2))
        | 'u' :: r =>
            match parseHex4 r with
            | some (n, r2) =>
                (parseJStrF fuel r2).map (fun p => (Char.ofNat n :: p.1, p.2))
            | none => none
        | _ => none
      else if c.toNat < 0x20 then none
      else (parseJStrF fuel rest).map (fun p => (c :: p.1, p.2))

/-- Parse a JSON string body with sufficient fuel. -/
def parseJStr (s : Str) : Option (Str × Str) := parseJStrF (s.length + 1) s

/-- Parse a JSON number `-?(0|[1-9]\d*)(\.\d+)?([eE][+-]?\d+)?`. -/
def parseJNum (s : Str) : Option (ℚ × Str) :=
  let (sign, s1) : ℚ × Str :=
    match s with
    | '-' :: r => (-1, r)
    | _ => (1, s)
  let intDigits := s1.takeWhile Char.isDigit
  if intDigits.isEmpty ∨ (intDigits.length ≥ 2 ∧ intDigits.headI = '0') then
    none
  else
    let s2 := s1.drop intDigits.length
    let (frac, s3) : ℚ × Str :=
      match s2 with
      | '.' :: r =>
          let fd := r.takeWhile Char.isDigit
          ((digitsVal fd : ℚ) / (10 : ℚ) ^ fd.length, r.drop fd.length)
      | _ => (0, s2)
    -- a dot must be followed by at least one digit
    if (s2.headI = '.' ∧ (s2.drop 1).takeWhile Char.isDigit = []) then none
    else
      let base : ℚ := (digitsVal intDigits : ℚ) + frac
      match s3 with
      | e :: r3 =>
          if e = 'e' ∨ e = 'E' then
            let (expNeg, r4) : Bool × Str :=
              match r3 with
              | '+' :: r => (false, r)
              | '-' :: r => (true, r)
              | _ => (false, r3)
            let ed := r4.takeWhile Char.isDigit
            if ed.isEmpty then none
            else
              let p : ℚ := (10 : ℚ) ^ digitsVal ed
              some (sign * base * (if expNeg then p⁻¹ else p), r4.drop ed.length)
          else some (sign * base, s3)
      | [] => some (sign * base, s3)

mutual

/-- Parse a JSON value starting at a non-whitespace position.  The fuel
bounds the nesting/member chain; every recursive call follows the
consumption of at least one character, so the `2·length + 8` fuel supplied
by `jsonParse` can never run out. -/
def parseJValF : Nat → Str → Option (JVal × Str)
  | 0, _ => none
  | fuel + 1, s =>
      match s with
      | '"' :: rest => (parseJStr rest).map (fun p => (JVal.jstr p.1, p.2))
      | '{' :: rest =>
          match skipJsonWs rest with
          | '}' :: r2 => some (JVal.jobj [], r2)
          | r1 =>
              match parseJMembersF fuel r1 with
              | some (fs, r2) => some (JVal.jobj fs, r2)
              | none => none
      | '[' :: rest =>
          match skipJsonWs rest with
          | ']' :: r2 => some (JVal.jarr [], r2)
          | r1 =>
              match parseJItemsF fuel r1 with
              | some (xs, r2) => some (JVal.jarr xs, r2)
              | none => none
      | 't' :: rest =>
          if (str "rue").isPrefixOf rest then
            some (JVal.jbool true, rest.drop 3)
          else none
      | 'f' :: rest =>
          if (str "alse").isPrefixOf rest then
            some (JVal.jbool false, rest.drop 4)
          else none
      | 'n' :: rest =>
          if (str "ull").isPrefixOf rest then some (JVal.jnull, rest.drop 3)
          else none
      | _ => (parseJNum s).map (fun p => (JVal.jnum p.1, p.2))

/-- Parse `string ws ':' element (',' … | '}')` object members. -/
def parseJMembersF : Nat → Str → Option (List (Str × JVal) × Str)
  | 0, _ => none
  | fuel + 1, s =>
      match s with
      | '"' :: rest =>
          match parseJStr rest with
          | some (key, r1) =>
              match skipJsonWs r1 with
              | ':' :: r2 =>
                  match parseJValF fuel (skipJsonWs r2) with
                  | some (v, r3) =>
                      match skipJsonWs r3 with
                      | ',' :: r4 =>
                          match parseJMembersF fuel (skipJsonWs r4) with
                          | some (fs, r5) => some ((key, v) :: fs, r5)
                          | none => none
                      | '}' :: r4 => some ([(key, v)], r4)
                      | _ => none
                  | none => none
              | _ => none
          | none => none
      | _ => none

/-- Parse `element (',' … | ']')` array items. -/
def parseJItemsF : Nat → Str → Option (List JVal × Str)
  | 0, _ => none
  | fuel + 1, s =>
      match parseJValF fuel s with
      | some (v, r1) =>
          match skipJsonWs r1 with
          | ',' :: r2 =>
              match parseJItemsF fuel (skipJsonWs r2) with
              | some (xs, r3) => some (v :: xs, r3)
              | none => none
          | ']' :: r2 => some ([v], r2)
          | _ => none
      | none => none

end

/-- `JSON.parse(text)`: a single value with only whitespace around it. -/
def jsonParse (text : Str) : Option JVal :=
  match parseJValF (2 * text.length + 8) (skipJsonWs text) with
  | some (v, rest) => if (skipJsonWs rest).isEmpty then some v else none
  | none => none

/-!  JS value coercions used on the parsed result. -/

/-- JS truthiness of a JSON value. -/
def jsTruthy : JVal → Bool
  | JVal.jnull => false
  | JVal.jbool b => b
  | JVal.jnum q => decide (q ≠ 0)
  | JVal.jstr s => !s.isEmpty
  | JVal.jarr _ => true
  | JVal.jobj _ => true

/-- Zero-pad on the left to `k` characters. -/
def padZeros (k : Nat) (s : Str) : Str := List.replicate (k - s.length) '0' ++ s

/-- Shortest exact decimal rendering of a rational whose denominator
divides a power of ten — every number produced by `jsonParse` is of this
form, and on them this agrees with JS `String(number)` (up to the
binary-float rounding and the `1e21`/`1e-7` exponent-notation corners,
which no value in this development reaches). -/
def ratDecimalStr (q : ℚ) : Str :=
  if q.den = 1 then str (toString q.num)
  else
    match (List.range (q.den + 1)).find? (fun k => q.den ∣ 10 ^ k) with
    | some k =>
        let scaled : ℕ := q.num.natAbs * 10 ^ k / q.den
        (if q.num < 0 then ['-'] else []) ++ str (toString (scaled / 10 ^ k))
          ++ ['.'] ++ padZeros k (str (toString (scaled % 10 ^ k)))
    | none => str (toString q.num) ++ ['/'] ++ str (toString q.den)

mutual

/-- JS `String(v)` for a JSON value (array elements render `null` as the
empty string, as `Array.prototype.toString` does). -/
def jsToStr : JVal → Str
  | JVal.jnull => str "null"
  | JVal.jbool true => str "true"
  | JVal.jbool false => str "false"
  | JVal.jnum q => ratDecimalStr q
  | JVal.jstr s => s
  | JVal.jarr xs => joinSep [','] (jsToStrList xs)
  | JVal.jobj _ => str "[object Object]"

/-- Elementwise rendering for arrays. -/
def jsToStrList : List JVal → List Str
  | [] => []
  | JVal.jnull :: rest => [] :: jsToStrList rest
  | v :: rest => jsToStr v :: jsToStrList rest

end

/-- `String(v || '')`. -/
def jsCoerceStr (v : JVal) : Str := if jsTruthy v then jsToStr v else []

/-- Property lookup on a parsed JSON object; `JSON.parse` keeps the last
duplicate key. -/
def getField (fields : List (Str × JVal)) (key : Str) : Option JVal :=
  (fields.reverse.find? (fun p => p.1 = key)).map (fun p => p.2)

/-!  ## Follow-up normalisation and styling (rag.ts lines 761–946) -/

/-- The banned corpus-related words of `normalizeFollowups`. -/
def bannedWords : List Str :=
  strs ["document", "documents", "sources", "corpus", "dossier"]

/-- `item.replace(/[?？]\s*$/u, '')`: the regex matches the last `?`/`？`
that is followed only by whitespace (one question mark plus that trailing
whitespace); with no such question mark nothing matches. -/
def stripTrailingQm (s : Str) : Str :=
  let t1 := dropRightWhile isJsSpace s
  if endsWith (str "?") t1 ∨ endsWith (str "？") t1 then t1.dropLast else s

/-- The dedup-and-cap loop of `normalizeFollowups`: case-insensitive key
dedup, stopping after the third kept item. -/
def dedupTake3Go : List Str → List Str → List Str
  | [], _ => []
  | x :: rest, seen =>
      let key := jsLower x
      if seen.contains key then dedupTake3Go rest seen
      else if seen.length + 1 ≥ 3 then [x]
      else x :: dedupTake3Go rest (key :: seen)

/-- `RAGService.normalizeFollowups(followups)` (lines 761–781) on a list
of strings: trim, drop empties, strip one trailing question mark and
re-trim, drop items containing a banned word (case-insensitively),
then dedup case-insensitively capped at 3. -/
def normalizeFollowups (followups : List Str) : List Str :=
  let normalized :=
    (((followups.map jsTrim).filter (fun s => !s.isEmpty)).map
        (fun item => jsTrim (stripTrailingQm item))).filter
      (fun item => !bannedWords.any (fun w => containsSub w (jsLower item)))
  dedupTake3Go normalized []

/-- `normalizeFollowups` on the raw parsed JSON value
(`if (!Array.isArray(followups)) return []`, then `String(item || '')`
coercion on each element). -/
def normalizeFollowupsVal : Option JVal → List Str
  | some (JVal.jarr xs) => normalizeFollowups (xs.map jsCoerceStr)
  | _ => []

/-- `RAGService.getDefaultFollowups()` (lines 803–817). -/
def getDefaultFollowups (cfg : Config) : List Str :=
  if !(serviceTheme cfg).isEmpty then
    [str "Si tu veux, je peux te donner un résumé rapide sur "
       ++ serviceTheme cfg ++ str ".",
     str "Si tu veux, je peux détailler un aspect précis de "
       ++ serviceTheme cfg ++ str ".",
     str "Dis-moi ce que tu veux obtenir sur " ++ serviceTheme cfg ++ str "."]
  else
    [str "Si tu veux, je peux te donner un résumé rapide.",
     str "Si tu veux, je peux détailler un aspect précis.",
     str "Dis-moi ce que tu veux obtenir."]

/-- JS `\w` (ASCII word character), for the `\b` boundaries below. -/
def isWordChar (c : Char) : Bool :=
  c.isDigit || ('a' ≤ c ∧ c ≤ 'z') || ('A' ≤ c ∧ c ≤ 'Z') || c = '_'

/-- `/^v\b/i` against `s`: `v` (already lowercase) starts the lowercased
string and ends at a word boundary. -/
def matchesBound (v s : Str) : Bool :=
  v.isPrefixOf (jsLower s) &&
    (match (jsLower s).drop v.length with
     | [] => true
     | c :: _ => !isWordChar c)

/-- `s.replace(/^v\b/i, repl)` for a set of same-length variants `vs`
(e.g. `peux[- ]tu` expands to `peux-tu`/`peux tu`). -/
def replaceBound (vs : List Str) (repl : Str) (s : Str) : Str :=
  match vs.find? (fun v => matchesBound v s) with
  | some v => repl ++ s.drop v.length
  | none => s

/-- The six polite-question patterns of `coerceToOffer`, expanded. -/
def politePats : List (List Str) :=
  [strs ["peux-tu", "peux tu"],
   strs ["pouvez-vous", "pouvez vous"],
   strs ["pourrais-tu", "pourrais tu"],
   strs ["pourriez-vous", "pourriez vous"],
   strs ["est-ce que tu peux"],
   strs ["est-ce que vous pouvez"]]

/-- `charAt(0).toLowerCase() + slice(1)`. -/
def lowerFirst : Str → Str
  | [] => []
  | c :: rest => jsLowerChar c :: rest

/-- `RAGService.coerceToOffer(text)` (lines 824–893). -/
def coerceToOffer (cfg : Config) (text : Str) : Str :=
  let trimmed := jsTrim text
  if trimmed.isEmpty then trimmed
  else
    let lower := jsLower trimmed
    if containsSub (str "veux-tu") lower || containsSub (str "veux tu") lower
        || containsSub (str "tu veux") lower then
      if !(serviceTheme cfg).isEmpty then
        str "Si tu veux, je peux approfondir sur " ++ serviceTheme cfg ++ str "."
      else str "Si tu veux, je peux approfondir ce point."
    else if (str "dis-moi").isPrefixOf lower then trimmed
    else
      let politeHit := politePats.any (fun vs => vs.any (fun v => matchesBound v trimmed))
      let afterPolite :=
        if politeHit then
          jsTrim
            (replaceBound (strs ["est-ce que vous pouvez"]) []
              (replaceBound (strs ["est-ce que tu peux"]) []
                (replaceBound (strs ["pourriez-vous", "pourriez vous"]) []
                  (replaceBound (strs ["pourrais-tu", "pourrais tu"]) []
                    (replaceBound (strs ["pouvez-vous", "pouvez vous"]) []
                      (replaceBound (strs ["peux-tu", "peux tu"]) [] trimmed))))))
        else []
      if politeHit ∧ !afterPolite.isEmpty then
        let topic :=
          replaceBound (strs ["me donner"]) (str "te donner")
            (replaceBound (strs ["me dire"]) (str "te dire")
              (replaceBound (strs ["m\x27en dire", "m’en dire"]) (str "t’en dire")
                (replaceBound (strs ["m\x27expliquer", "m’expliquer"]) (str "t’expliquer")
                  (replaceBound (strs ["m\x27en dire plus sur", "m’en dire plus sur"])
                    (str "t’en dire plus sur") afterPolite))))
        str "Si tu veux, je peux " ++ topic
      else
        let withoutPre :=
          if (str "si tu veux,").isPrefixOf lower then
            jsTrim (trimmed.drop (str "si tu veux,").length)
          else trimmed
        let starters :=
          strs ["qui", "quoi", "quel", "quelle", "quels", "quelles",
                "comment", "pourquoi", "où", "quand", "est-ce"]
        if starters.any (fun w => w.isPrefixOf (jsLower withoutPre)) then
          if !(serviceTheme cfg).isEmpty then
            str "Si tu veux, je peux approfondir sur " ++ serviceTheme cfg ++ str "."
          else str "Si tu veux, je peux approfondir ce point."
        else if (str "je peux").isPrefixOf (jsLower withoutPre) then
          str "Si tu veux, " ++ lowerFirst withoutPre
        else str "Si tu veux, je peux " ++ lowerFirst withoutPre

/-- `RAGService.applyFollowupStyle(followups)` (lines 788–797). -/
def applyFollowupStyle (cfg : Config) (followups : List Str) : List Str :=
  let normalized := normalizeFollowups followups
  if normalized.isEmpty then getDefaultFollowups cfg
  else normalized.map (coerceToOffer cfg)

/-!  ## Trailing-question stripping and the open-ended line
(rag.ts lines 900–946) -/

/-- `text.split(/(?<=[.!?])\s+/)`: a maximal whitespace run separates
sentences exactly when the character before the run is `.`, `!` or `?`.
The `inSep` flag consumes the remainder of a separator run. -/
def splitSentGo : Str → Char → Bool → Str → List Str
  | [], _, _, cur => [cur.reverse]
  | c :: rest, _, true, cur =>
      if isJsSpace c then splitSentGo rest c true cur
      else splitSentGo rest c false [c]
  | c :: rest, prev, false, cur =>
      if isJsSpace c ∧ (prev = '.' ∨ prev = '!' ∨ prev = '?') then
        cur.reverse :: splitSentGo rest c true []
      else splitSentGo rest c false (c :: cur)

/-- Sentence split of a whole text (the initial `prev` is a sentinel that
is not a sentence terminator). -/
def splitSentences (text : Str) : List Str :=
  splitSentGo text '\x00' false []

/-- `RAGService.stripTrailingQuestion(text)` (lines 911–931). -/
def stripTrailingQuestion (text : Str) : Str :=
  if text.isEmpty then text
  else
    let sentences := splitSentences text
    if sentences.length ≤ 1 then text
    else
      let last := jsTrim (sentences.getLastD [])
      let lower := jsLower last
      let isQuestion := endsWith (str "?") last
      let starters :=
        strs ["dis-moi", "peux-tu", "pouvez-vous", "pourrais-tu",
              "pourriez-vous", "est-ce que", "comment", "pourquoi", "où",
              "quand", "quel", "quelle", "quels", "quelles"]
      if isQuestion || starters.any (fun st => st.isPrefixOf lower) then
        jsTrim (joinSep [' '] sentences.dropLast)
      else text

/-- `RAGService.pickOpenEndedLine(followups)` (lines 938–946). -/
def pickOpenEndedLine (cfg : Config) (followups : List Str) : Str :=
  let normalized := normalizeFollowups followups
  if !normalized.isEmpty then normalized.headI
  else
    let defaults := getDefaultFollowups cfg
    if !defaults.isEmpty then defaults.headI else []

/-- `RAGService.appendOpenEndedLine(answer, followups)` (lines 900–909). -/
def appendOpenEndedLine (cfg : Config) (answer : Str) (followups : List Str) :
    Str :=
  let trimmed := stripTrailingQuestion (jsTrim answer)
  if trimmed.isEmpty then trimmed
  else
    let openLine := pickOpenEndedLine cfg followups
    if openLine.isEmpty then trimmed
    else if containsSub (jsLower openLine) (jsLower trimmed) then trimmed
    else trimmed ++ str "\n\n" ++ openLine

/-!  ## `parseAnswerJson` itself -/

/-- The parsed `{answer, followups}` result. -/
structure ParsedAnswer where
  answer : Str
  followups : List Str
  deriving DecidableEq, Repr

/-- `RAGService.parseAnswerJson(text)` (rag.ts lines 737–754): slice from
the first `{` to the last `}` (naive, not a balanced-brace scan), parse
with `JSON.parse`, require an object with a truthy trimmed `answer`. -/
def parseAnswerJson (text : Str) : Option ParsedAnswer :=
  if text.isEmpty then none
  else
    match idxOfChar '{' text, lastIdxOfChar '}' text with
    | some first, some last =>
        if last ≤ first then none
        else
          let jsonText := (text.take (last + 1)).drop first
          match jsonParse jsonText with
          | some (JVal.jobj fields) =>
              let answer :=
                jsTrim (match getField fields (str "answer") with
                  | some a => jsCoerceStr a
                  | none => [])
              if answer.isEmpty then none
              else
                some { answer := answer
                       followups := normalizeFollowupsVal
                         (getField fields (str "followups")) }
          | some (JVal.jarr _) => none  -- typeof is object, answer is undefined
          | some _ => none              -- not an object (or null, which is falsy)
          | none => none
    | _, _ => none

/-!  ## Sources (`RAGService.formatSources`, rag.ts lines 703–719) -/

/-- A formatted source entry. -/
structure Source where
  title : Str
  author : Str
  date : Str
  score : ℤ
  deriving DecidableEq, Repr

/-- The dedup key `` `${hit.payload.title}-${hit.payload.author}` ``. -/
def sourceKey (c : Chunk) : Str :=
  c.payload.title ++ ['-'] ++ c.payload.author

/-- The entry stored for the first chunk of a key. -/
def mkSource (c : Chunk) : Source :=
  { title := if c.payload.title.isEmpty then str "Document" else c.payload.title
    author := if c.payload.author.isEmpty then str "Inconnu" else c.payload.author
    date := if c.payload.date.isEmpty then str "Date inconnue" else c.payload.date
    score := jsRound (c.score * 100) }

/-- The `Map`-based loop of `formatSources`: insertion order, first entry
per key wins. -/
def formatSourcesGo : List Chunk → List Str → List Source
  | [], _ => []
  | c :: rest, seen =>
      if seen.contains (sourceKey c) then formatSourcesGo rest seen
      else mkSource c :: formatSourcesGo rest (sourceKey c :: seen)

/-- `RAGService.formatSources(searchResults)`. -/
def formatSources (searchResults : List Chunk) : List Source :=
  formatSourcesGo searchResults []

/-!  ## Adaptive threshold (`VectorService.getAdaptiveThreshold`,
src/unnamed/part_007 lines 49–56) -/

/-- `getAdaptiveThreshold(question)`: four bands over
`question.split(/\s+/).filter(Boolean).length`, built from
`appConfig.minScore`. -/
def getAdaptiveThreshold (cfg : Config) (question : Str) : ℚ :=
  let wc := wordCount question
  if wc ≤ 3 then max (1/2) (cfg.minScore - 1/10)
  else if wc ≤ 6 then max (11/20) (cfg.minScore - 1/20)
  else if wc ≤ 12 then cfg.minScore
  else min (17/20) (cfg.minScore + 1/20)

/-!  ## Answer generation (rag.ts lines 467–560) with the chat endpoint as
an oracle -/

/-- The `{answer, followups}` pair returned by `generateAnswer`. -/
structure AnswerFollowups where
  answer : Str
  followups : List Str
  deriving DecidableEq, Repr

/-- The shared post-processing of a successful chat completion
(`generateAnswer` and `generateAnswerFallback` have the identical body):
trim the raw content, try `parseAnswerJson`, style the follow-ups or fall
back to the raw text with default follow-ups. -/
def postprocessChatContent (cfg : Config) (content : Str) : AnswerFollowups :=
  let raw := jsTrim content
  match parseAnswerJson raw with
  | some parsed =>
      let styledFollowups := applyFollowupStyle cfg parsed.followups
      { answer := appendOpenEndedLine cfg parsed.answer styledFollowups
        followups := styledFollowups }
  | none =>
      { answer := appendOpenEndedLine cfg raw []
        followups := getDefaultFollowups cfg }

/-- `RAGService.generateAnswerFallback(question, context)` (lines
535–560); `fallbackCall` is the fallback-model completion oracle
(`.error` = the call rejected). -/
def generateAnswerFallback (cfg : Config) (fallbackCall : Except Str Str) :
    Except Str AnswerFollowups :=
  match fallbackCall with
  | Except.error e => Except.error e
  | Except.ok content => Except.ok (postprocessChatContent cfg content)

/-- `RAGService.generateAnswer(question, context)` (lines 467–530): on a
primary-call error whose message contains `'maximum context length'`, run
the fallback path once and return its result; any other error propagates. -/
def generateAnswer (cfg : Config) (primaryCall fallbackCall : Except Str Str) :
    Except Str AnswerFollowups :=
  match primaryCall with
  | Except.ok content => Except.ok (postprocessChatContent cfg content)
  | Except.error e =>
      if containsSub (str "maximum context length") e then
        generateAnswerFallback cfg fallbackCall
      else Except.error e

/-!  ## The response envelope and `processQuestion`
(rag.ts lines 44–222, 431–446, 612–652) -/

/-- The `context` block of the envelope. -/
structure CtxOut where
  lastTopic : Str
  lastAnswer : Str
  lastQuestion : Str
  deriving DecidableEq, Repr

/-- The optional `metadata` block. -/
structure Meta where
  chunksUsed : Nat
  totalTokens : Option ℤ := none
  contextReduced : Bool := false
  deriving DecidableEq, Repr

/-- The answer envelope returned by `processQuestion`. -/
structure Envelope where
  answer : Str
  sources : List Source
  found : Bool
  followups : List Str
  metadata : Option Meta := none
  contextOut : Option CtxOut := none
  deriving DecidableEq, Repr

/-- The external-call oracles of one `processQuestion` run: the embedding
endpoint, the vector search (a function of the supplied vector, limit and
threshold), and the three possible chat completions. -/
structure Oracles where
  embed : Except Str (List ℚ)
  search : List ℚ → Nat → ℚ → Except Str (List Chunk)
  chatPrimary : Except Str Str
  chatFallback : Except Str Str
  chatOffTopic : Except Str Str

/-- The guidance envelope shared by the disallowed small-talk / distance /
math branches and the vague branch. -/
def guidanceEnvelope (cfg : Config) (ctx : Ctx) (reason refined : Str) :
    Envelope :=
  { answer := buildGuidanceAnswer cfg reason ctx
    sources := []
    found := false
    followups := []
    contextOut := some { lastTopic := ctx.lastTopic, lastAnswer := []
                         lastQuestion := refined } }

/-- `RAGService.generateOffTopicAnswer(question, context)` (lines
612–652): a short chat completion plus redirect on success, the
`no_results` guidance envelope when the call fails. -/
def generateOffTopicAnswer (cfg : Config) (ctx : Ctx) (o : Oracles)
    (question : Str) : Envelope :=
  match o.chatOffTopic with
  | Except.ok content =>
      { answer := jsTrim content ++ str "\n\n" ++ buildOffTopicRedirect cfg
        sources := []
        found := true
        followups := []
        contextOut := some { lastTopic := ctx.lastTopic, lastAnswer := []
                             lastQuestion := question } }
  | Except.error _ => guidanceEnvelope cfg ctx (str "no_results") question

/-- `RAGService.processQuestionWithContext(question, searchResults)`
(lines 431–446): build the context, generate, and return a `found:true`
envelope with `contextReduced` metadata — with no further budget check. -/
def processQuestionWithContext (cfg : Config) (o : Oracles)
    (searchResults : List Chunk) : Except Str Envelope :=
  match generateAnswer cfg o.chatPrimary o.chatFallback with
  | Except.error e => Except.error e
  | Except.ok af =>
      Except.ok
        { answer := af.answer
          sources := formatSources searchResults
          found := true
          followups := af.followups
          metadata := some { chunksUsed := searchResults.length
                             contextReduced := true } }

/-- The fixed "too long" envelope (lines 164–174). -/
def tooLongEnvelope : Envelope :=
  { answer := str "Les documents trouvés sont trop longs pour être traités. Essayez une question plus spécifique."
    sources := []
    found := false
    followups :=
      [str "Peux-tu reformuler la question de façon plus précise ?",
       str "Sur quelle partie du document veux-tu te concentrer ?"] }

/-- The error-message rewrite of the `catch` block of `processQuestion`
(lines 212–221). -/
def catchTransform (e : Str) : Str :=
  if containsSub (str "maximum context length") e ||
      containsSub (str "16385 tokens") e then
    str "CONTEXT_TOO_LONG: Le contexte dépasse la limite de tokens. Essayez une question plus courte ou plus spécifique."
  else e

/-- The retrieval stage of `processQuestion` (the `try` block, lines
132–211): embed, search with the adaptive threshold (computed from the
*original* question), one retry at the fallback score, token-budget
filtering, the 14000-token hard-ceiling check with single-drop reduction,
generation, and envelope assembly. -/
def retrievalStage (cfg : Config) (ctx : Ctx) (o : Oracles)
    (question refined : Str) (rewritten : RewriteResult) :
    Except Str Envelope :=
  match o.embed with
  | Except.error e => Except.error e
  | Except.ok vector =>
    let threshold := getAdaptiveThreshold cfg question
    match o.search vector MAX_CHUNKS_TO_RETRIEVE threshold with
    | Except.error e => Except.error e
    | Except.ok res1 =>
      let step2 : Except Str (List Chunk) :=
        if res1.length = 0 ∧ threshold > cfg.fallbackScore then
          o.search vector MAX_CHUNKS_TO_RETRIEVE cfg.fallbackScore
        else Except.ok res1
      match step2 with
      | Except.error e => Except.error e
      | Except.ok searchResults =>
        if searchResults.isEmpty then
          Except.ok (guidanceEnvelope cfg ctx (str "no_results") refined)
        else
          let filteredResults := filterResultsByTokenLimit searchResults
          if filteredResults.isEmpty then Except.ok tooLongEnvelope
          else
            let contextText := buildContext filteredResults
            let totalTokens := estimateTokens (contextText ++ refined)
            if totalTokens > 14000 then
              processQuestionWithContext cfg o
                (filteredResults.take (max 1 (filteredResults.length - 1)))
            else
              match generateAnswer cfg o.chatPrimary o.chatFallback with
              | Except.error e => Except.error e
              | Except.ok af =>
                let sources := formatSources filteredResults
                Except.ok
                  { answer := af.answer
                    sources := sources
                    found := true
                    followups := af.followups
                    metadata := some { chunksUsed := filteredResults.length
                                       totalTokens := some totalTokens }
                    contextOut := some
                      { lastTopic :=
                          match sources.head? with
                          | some s0 =>
                              if !s0.title.isEmpty then s0.title
                              else ctx.lastTopic
                          | none => ctx.lastTopic
                        lastAnswer := af.answer
                        lastQuestion :=
                          if !(rewritten.baseQuestion.getD []).isEmpty then
                            rewritten.baseQuestion.getD []
                          else refined } }

/-- The triage outcome, as an explicit classification. -/
inductive TriageResult where
  | greeting (refined : Str)
  | smalltalk (refined : Str)
  | distance (refined : Str)
  | math (refined : Str) (value : ℚ)
  | vague (refined : Str)
  | retrieval (refined : Str)
  deriving DecidableEq, Repr

/-- The ordered, first-match-wins classification performed by
`processQuestion` (lines 52–130): greeting → small-talk → distance → math
→ vague → retrieval, applied to the refined question. -/
def triage (cfg : Config) (ctx : Ctx) (question : Str) : TriageResult :=
  let refined := (refineQuestion cfg ctx question).2
  if isGreeting refined then TriageResult.greeting refined
  else if isSmallTalk refined then TriageResult.smalltalk refined
  else if isDistanceQuestion refined then TriageResult.distance refined
  else
    match trySolveMath refined with
    | some v => TriageResult.math refined v
    | none =>
        if isVagueQuestion refined then TriageResult.vague refined
        else TriageResult.retrieval refined

/-- `RAGService.processQuestion(question, context)` (lines 44–222):
refinement, the ordered triage above, and the retrieval stage wrapped in
the error-rewriting `catch`. -/
def processQuestion (cfg : Config) (ctx : Ctx) (o : Oracles)
    (question : Str) : Except Str Envelope :=
  let rewritten := (refineQuestion cfg ctx question).1
  match triage cfg ctx question with
  | TriageResult.greeting refined =>
      Except.ok
        { answer := buildWelcomeMessage cfg
          sources := []
          found := true
          followups := []
          contextOut := some { lastTopic := ctx.lastTopic, lastAnswer := []
                               lastQuestion := refined } }
  | TriageResult.smalltalk refined =>
      if !isOtherTopicAllowed cfg (str "smalltalk") then
        Except.ok (guidanceEnvelope cfg ctx (str "no_results") refined)
      else Except.ok (generateOffTopicAnswer cfg ctx o refined)
  | TriageResult.distance refined =>
      if !isOtherTopicAllowed cfg (str "distance") then
        Except.ok (guidanceEnvelope cfg ctx (str "no_results") refined)
      else Except.ok (generateOffTopicAnswer cfg ctx o refined)
  | TriageResult.math refined _ =>
      if !isOtherTopicAllowed cfg (str "math") then
        Except.ok (guidanceEnvelope cfg ctx (str "no_results") refined)
      else Except.ok (generateOffTopicAnswer cfg ctx o refined)
  | TriageResult.vague refined =>
      Except.ok (guidanceEnvelope cfg ctx (str "vague") refined)
  | TriageResult.retrieval refined =>
      match retrievalStage cfg ctx o question refined rewritten with
      | Except.error e => Except.error (catchTransform e)
      | Except.ok env => Except.ok env

/-!  ## Basic facts about the character and string model -/

theorem char_toNat_ofNatAux (n : Nat) (h : n.isValidChar) :
    (Char.ofNatAux n h).toNat = n := by
  have hlt : n < 2 ^ 32 := by
    rcases h with h | h <;> omega
  simp [Char.ofNatAux, Char.toNat, UInt32.toNat, BitVec.toNat_ofNatLt]

theorem char_toNat_ofNat (n : Nat) (h : n.isValidChar) :
    (Char.ofNat n).toNat = n := by
  unfold Char.ofNat
  rw [dif_pos h]
  exact char_toNat_ofNatAux n h

theorem char_eq_iff (a b : Char) : a = b ↔ a.toNat = b.toNat := by
  constructor
  · intro h; rw [h]
  · intro h
    apply Char.ext
    apply UInt32.eq_of_toBitVec_eq
    apply BitVec.eq_of_toNat_eq
    simpa [Char.toNat, UInt32.toNat] using h

theorem char_le_iff (a b : Char) : a ≤ b ↔ a.toNat ≤ b.toNat := Iff.rfl

theorem isJsSpace_iff (c : Char) :
    isJsSpace c = true ↔
      c.toNat = 32 ∨ c.toNat = 9 ∨ c.toNat = 10 ∨ c.toNat = 13 ∨
      c.toNat = 11 ∨ c.toNat = 12 ∨ c.toNat = 160 := by
  unfold isJsSpace
  simp only [Bool.or_eq_true, decide_eq_true_eq, char_eq_iff,
    show (' ' : Char).toNat = 32 by decide,
    show ('\t' : Char).toNat = 9 by decide,
    show ('\n' : Char).toNat = 10 by decide,
    show ('\x0d' : Char).toNat = 13 by decide,
    show ('\x0b' : Char).toNat = 11 by decide,
    show ('\x0c' : Char).toNat = 12 by decide,
    show ('\u00A0' : Char).toNat = 160 by decide]
  tauto

theorem isJsSpace_jsLowerChar (c : Char) :
    isJsSpace (jsLowerChar c) = isJsSpace c := by
  unfold jsLowerChar
  split
  · next h =>
      have hn : (65 ≤ c.toNat ∧ c.toNat ≤ 90) ∨
          (192 ≤ c.toNat ∧ c.toNat ≤ 222 ∧ c.toNat ≠ 215) := by
        rcases h with ⟨h1, h2⟩ | ⟨⟨h1, h2⟩, h3⟩
        · exact Or.inl ⟨h1, h2⟩
        · refine Or.inr ⟨h1, h2, ?_⟩
          intro hx
          exact h3 (char_eq_iff _ _ |>.mpr hx)
      have hv : (c.toNat + 32).isValidChar := Or.inl (by omega)
      have ht : (Char.ofNat (c.toNat + 32)).toNat = c.toNat + 32 :=
        char_toNat_ofNat _ hv
      have h1 : isJsSpace (Char.ofNat (c.toNat + 32)) = false := by
        rw [Bool.eq_false_iff]
        intro hsp
        rw [isJsSpace_iff, ht] at hsp
        omega
      have h2 : isJsSpace c = false := by
        rw [Bool.eq_false_iff]
        intro hsp
        rw [isJsSpace_iff] at hsp
        omega
      rw [h1, h2]
  · rfl

theorem jsLower_length (s : Str) : (jsLower s).length = s.length :=
  List.length_map s jsLowerChar

theorem isJsSpace_comp_jsLowerChar :
    (isJsSpace ∘ jsLowerChar) = isJsSpace :=
  funext (fun c => isJsSpace_jsLowerChar c)

theorem dropWhile_jsLower (s : Str) :
    (jsLower s).dropWhile isJsSpace = jsLower (s.dropWhile isJsSpace) := by
  rw [jsLower, List.dropWhile_map, isJsSpace_comp_jsLowerChar, jsLower]

theorem dropRightWhile_jsLower (s : Str) :
    dropRightWhile isJsSpace (jsLower s) =
      jsLower (dropRightWhile isJsSpace s) := by
  unfold dropRightWhile
  rw [jsLower, ← List.map_reverse, List.dropWhile_map,
    isJsSpace_comp_jsLowerChar, ← List.map_reverse, jsLower]

theorem jsTrim_jsLower (s : Str) : jsTrim (jsLower s) = jsLower (jsTrim s) := by
  unfold jsTrim
  rw [dropWhile_jsLower, dropRightWhile_jsLower]

theorem dropWhile_dropWhile (p : Char → Bool) (l : Str) :
    (l.dropWhile p).dropWhile p = l.dropWhile p := by
  induction l with
  | nil => rfl
  | cons c rest ih =>
      by_cases h : p c
      · simpa [List.dropWhile_cons, h] using ih
      · simp [List.dropWhile_cons, h]

theorem dropWhile_length_le (p : Char → Bool) (l : Str) :
    (l.dropWhile p).length ≤ l.length := by
  induction l with
  | nil => simp
  | cons c rest ih =>
      by_cases h : p c
      · simp only [List.dropWhile_cons, h, if_true]
        exact Nat.le_trans ih (by simp)
      · simp [List.dropWhile_cons, h]

theorem dropWhile_eq_self_of_length (p : Char → Bool) (l : Str)
    (h : (l.dropWhile p).length = l.length) : l.dropWhile p = l := by
  induction l with
  | nil => rfl
  | cons c rest ih =>
      by_cases hc : p c
      · exfalso
        rw [List.dropWhile_cons, if_pos hc] at h
        have := dropWhile_length_le p rest
        simp at h
        omega
      · rw [List.dropWhile_cons, if_neg hc]

theorem dropRightWhile_length_le (p : Char → Bool) (l : Str) :
    (dropRightWhile p l).length ≤ l.length := by
  unfold dropRightWhile
  rw [List.length_reverse]
  calc (l.reverse.dropWhile p).length ≤ l.reverse.length :=
        dropWhile_length_le p l.reverse
    _ = l.length := List.length_reverse l

theorem dropRightWhile_dropRightWhile (p : Char → Bool) (l : Str) :
    dropRightWhile p (dropRightWhile p l) = dropRightWhile p l := by
  unfold dropRightWhile
  rw [List.reverse_reverse, dropWhile_dropWhile]

/-- The head of `dropWhile p l` does not satisfy `p`. -/
theorem dropWhile_head_false (p : Char → Bool) (l : Str) (c : Char)
    (rest : Str) (h : l.dropWhile p = c :: rest) : p c = false := by
  induction l with
  | nil => simp at h
  | cons d tl ih =>
      by_cases hd : p d
      · rw [List.dropWhile_cons, if_pos hd] at h
        exact ih h
      · rw [List.dropWhile_cons, if_neg hd] at h
        injection h with h1 _
        rw [← h1]
        exact Bool.eq_false_iff.mpr hd

/-- Unfolding `dropRightWhile` over a `cons`. -/
theorem dropRightWhile_cons (p : Char → Bool) (c : Char) (rest : Str) :
    dropRightWhile p (c :: rest) =
      if p c ∧ dropRightWhile p rest = [] then []
      else c :: dropRightWhile p rest := by
  unfold dropRightWhile
  rw [show (c :: rest).reverse = rest.reverse ++ [c] by simp,
    List.dropWhile_append]
  by_cases hre : (rest.reverse.dropWhile p).isEmpty
  · rw [if_pos hre]
    have hnil : (rest.reverse.dropWhile p).reverse = [] := by
      rcases List.isEmpty_iff.mp hre with h
      rw [h]; rfl
    by_cases hc : p c
    · rw [if_pos ⟨hc, hnil⟩]
      simp [List.dropWhile_cons, hc]
    · rw [if_neg (by intro hcon; exact hc hcon.1)]
      simp [List.dropWhile_cons, hc, hnil]
  · rw [if_neg hre]
    have hne : (rest.reverse.dropWhile p).reverse ≠ [] := by
      intro hcon
      apply hre
      rw [List.isEmpty_iff]
      have := congrArg List.reverse hcon
      simpa using this
    rw [if_neg (by intro hcon; exact hne hcon.2)]
    simp

/-- `dropRightWhile` preserves the absence of leading `p`-characters. -/
theorem dropWhile_dropRightWhile (p : Char → Bool) (l : Str)
    (h : l.dropWhile p = l) :
    (dropRightWhile p l).dropWhile p = dropRightWhile p l := by
  match l, h with
  | [], _ => rfl
  | c :: rest, h =>
      have hc : p c = false := by
        by_cases hc : p c
        · exfalso
          rw [List.dropWhile_cons, if_pos hc] at h
          have hlen := congrArg List.length h
          have := dropWhile_length_le p rest
          simp at hlen
          omega
        · exact Bool.eq_false_iff.mpr hc
      rw [dropRightWhile_cons, if_neg (by intro hcon; rw [hc] at hcon; exact Bool.false_ne_true hcon.1)]
      rw [List.dropWhile_cons, if_neg (by rw [hc]; exact Bool.false_ne_true)]

theorem jsTrim_idem (s : Str) : jsTrim (jsTrim s) = jsTrim s := by
  unfold jsTrim
  have h1 : (s.dropWhile isJsSpace).dropWhile isJsSpace = s.dropWhile isJsSpace :=
    dropWhile_dropWhile _ s
  rw [dropWhile_dropRightWhile isJsSpace _ h1,
    dropRightWhile_dropRightWhile]

/-- A string fixed by `jsTrim` is fixed by both one-sided trims. -/
theorem trim_fix_both (s : Str) (h : jsTrim s = s) :
    s.dropWhile isJsSpace = s ∧ dropRightWhile isJsSpace s = s := by
  unfold jsTrim at h
  have hlen := congrArg List.length h
  have l1 := dropWhile_length_le isJsSpace s
  have l2 := dropRightWhile_length_le isJsSpace (s.dropWhile isJsSpace)
  have hdw : (s.dropWhile isJsSpace).length = s.length := by omega
  have hfix : s.dropWhile isJsSpace = s :=
    dropWhile_eq_self_of_length _ _ hdw
  refine ⟨hfix, ?_⟩
  rw [hfix] at h
  exact h

/-!  ## Shared concrete fixtures for witnesses and counterexamples -/

/-- The default configuration (`appConfig` defaults: `minScore` 0.6,
`fallbackScore` 0.45, everything else empty). -/
def cfgBase : Config :=
  { appTheme := [], welcomeMessage := [], suggestedTopics := [],
    otherTopicAllowed := [], offTopicRedirectLine := [],
    minScore := 3/5, fallbackScore := 9/20 }

/-- An oracle set whose external calls are never needed by the triage
shortcuts (every call fails loudly). -/
def oEmpty : Oracles :=
  { embed := Except.error (str "embed unavailable")
    search := fun _ _ _ => Except.ok []
    chatPrimary := Except.error (str "chat unavailable")
    chatFallback := Except.error (str "chat unavailable")
    chatOffTopic := Except.error (str "chat unavailable") }

/-!  ## Claim C6 — context-length fallback in `generateAnswer` -/

/-- Claim C6: if the primary chat-completion call throws an error whose
message contains "maximum context length", `generateAnswer` invokes the
fallback path exactly once and returns its result (so a fallback error
propagates to the caller); an error not matching the pattern propagates
without invoking the fallback. -/
theorem C6_context_length_fallback (cfg : Config) (e : Str)
    (fallbackCall : Except Str Str) :
    (containsSub (str "maximum context length") e = true →
      generateAnswer cfg (Except.error e) fallbackCall =
        generateAnswerFallback cfg fallbackCall ∧
      ∀ e', fallbackCall = Except.error e' →
        generateAnswer cfg (Except.error e) fallbackCall = Except.error e') ∧
    (containsSub (str "maximum context length") e = false →
      generateAnswer cfg (Except.error e) fallbackCall = Except.error e) := by
  constructor
  · intro h
    refine ⟨by simp [generateAnswer, h], ?_⟩
    intro e' he'
    simp [generateAnswer, h, generateAnswerFallback, he']
  · intro h
    simp [generateAnswer, h]

/-- Witness for C6 at concrete errors: a context-length error falls back
(and the fallback's own error surfaces); an unrelated error propagates. -/
theorem C6_context_length_fallback_witness :
    containsSub (str "maximum context length")
        (str "This model\x27s maximum context length is 16385 tokens") = true ∧
    generateAnswer cfgBase
        (Except.error (str "This model\x27s maximum context length is 16385 tokens"))
        (Except.error (str "fallback boom")) =
      Except.error (str "fallback boom") ∧
    containsSub (str "maximum context length") (str "rate limit") = false ∧
    generateAnswer cfgBase (Except.error (str "rate limit"))
        (Except.error (str "fallback boom")) =
      Except.error (str "rate limit") := by
  refine ⟨by decide, ?_, by decide, ?_⟩
  · exact ((C6_context_length_fallback cfgBase
      (str "This model\x27s maximum context length is 16385 tokens")
      (Except.error (str "fallback boom"))).1 (by decide)).2 _ rfl
  · exact (C6_context_length_fallback cfgBase (str "rate limit")
      (Except.error (str "fallback boom"))).2 (by decide)

/-!  ## Claim C2 — adaptive threshold -/

/-- Claim C2: with the configured base within the band the spec's table
presupposes (`floor + 0.05 ≤ base ≤ cap`, satisfied by the default 0.6),
`getAdaptiveThreshold` is monotonically non-decreasing in the question's
word count and always lies within `[0.5, 0.85]`; with base 0.6 a 2-word
question yields 0.5, a 5-word one 0.55, a 10-word one 0.6 and a 20-word
one 0.65. -/
theorem C2_adaptive_threshold (cfg : Config) (q q' : Str)
    (hfloor : 11/20 ≤ cfg.minScore) (hcap : cfg.minScore ≤ 17/20)
    (hw : wordCount q ≤ wordCount q') :
    getAdaptiveThreshold cfg q ≤ getAdaptiveThreshold cfg q' ∧
    1/2 ≤ getAdaptiveThreshold cfg q ∧
    getAdaptiveThreshold cfg q ≤ 17/20 ∧
    (cfg.minScore = 3/5 →
      getAdaptiveThreshold cfg (str "mot mot") = 1/2 ∧
      getAdaptiveThreshold cfg (str "un deux trois quatre cinq") = 11/20 ∧
      getAdaptiveThreshold cfg (str "a b c d e f g h i j") = 3/5 ∧
      getAdaptiveThreshold cfg
        (str "a b c d e f g h i j k l m n o p q r s t") = 13/20) := by
  have A1 : max (1/2 : ℚ) (cfg.minScore - 1/10) ≤
      max (11/20) (cfg.minScore - 1/20) :=
    max_le_max (by norm_num) (by linarith)
  have A2 : max (11/20 : ℚ) (cfg.minScore - 1/20) ≤ cfg.minScore :=
    max_le hfloor (by linarith)
  have A3 : cfg.minScore ≤ min (17/20 : ℚ) (cfg.minScore + 1/20) :=
    le_min hcap (by linarith)
  have B1 : (1/2 : ℚ) ≤ max (1/2) (cfg.minScore - 1/10) := le_max_left _ _
  have B2 : max (1/2 : ℚ) (cfg.minScore - 1/10) ≤ 17/20 :=
    max_le (by norm_num) (by linarith)
  have B3 : (1/2 : ℚ) ≤ max (11/20) (cfg.minScore - 1/20) :=
    le_trans (by norm_num) (le_max_left _ _)
  have B4 : max (11/20 : ℚ) (cfg.minScore - 1/20) ≤ 17/20 :=
    max_le (by norm_num) (by linarith)
  have B5 : (1/2 : ℚ) ≤ cfg.minScore := le_trans (by norm_num) hfloor
  have B7 : (1/2 : ℚ) ≤ min (17/20) (cfg.minScore + 1/20) :=
    le_min (by norm_num) (by linarith)
  have B8 : min (17/20 : ℚ) (cfg.minScore + 1/20) ≤ 17/20 := min_le_left _ _
  refine ⟨?_, ?_, ?_, ?_⟩
  · unfold getAdaptiveThreshold
    dsimp only
    split_ifs <;> linarith
  · unfold getAdaptiveThreshold
    dsimp only
    split_ifs <;> linarith
  · unfold getAdaptiveThreshold
    dsimp only
    split_ifs <;> linarith
  · intro hms
    refine ⟨?_, ?_, ?_, ?_⟩ <;>
      · unfold getAdaptiveThreshold
        dsimp only
        rw [hms]
        norm_num [show wordCount (str "mot mot") = 2 by decide,
          show wordCount (str "un deux trois quatre cinq") = 5 by decide,
          show wordCount (str "a b c d e f g h i j") = 10 by decide,
          show wordCount (str "a b c d e f g h i j k l m n o p q r s t") = 20
            by decide]

/-- Witness for C2 at the default configuration (base 0.6) and concrete
2-word/5-word questions. -/
theorem C2_adaptive_threshold_witness :
    (11/20 ≤ cfgBase.minScore ∧ cfgBase.minScore ≤ 17/20 ∧
      wordCount (str "mot mot") ≤ wordCount (str "un deux trois quatre cinq")) ∧
    getAdaptiveThreshold cfgBase (str "mot mot") ≤
      getAdaptiveThreshold cfgBase (str "un deux trois quatre cinq") ∧
    1/2 ≤ getAdaptiveThreshold cfgBase (str "mot mot") ∧
    getAdaptiveThreshold cfgBase (str "mot mot") = 1/2 ∧
    getAdaptiveThreshold cfgBase (str "un deux trois quatre cinq") = 11/20 := by
  have h := C2_adaptive_threshold cfgBase (str "mot mot")
    (str "un deux trois quatre cinq") (by norm_num [cfgBase])
    (by norm_num [cfgBase]) (by decide)
  have hc := h.2.2.2 (by norm_num [cfgBase])
  exact ⟨⟨by norm_num [cfgBase], by norm_num [cfgBase], by decide⟩,
    h.1, h.2.1, hc.1, hc.2.1⟩

/-!  ## Claim C9 — source deduplication -/

/-- A chunk whose title contains a dash. -/
def chunkA : Chunk :=
  { score := 1/2
    payload := { text := str "texte un", title := str "a-b",
                 author := str "c", date := str "2024" } }

/-- A chunk with a different `(title, author)` pair but the same
concatenated `title-author` key as `chunkA`. -/
def chunkB : Chunk :=
  { score := 7/10
    payload := { text := str "texte deux", title := str "a",
                 author := str "b-c", date := str "2024" } }

/-- Counterexample for C9: two chunks with distinct `(title, author)`
pairs collapse into a single source entry, because the dedup key is the
string `title + '-' + author`, which collides when the fields contain
dashes. -/
theorem C9_sources_key_collision :
    chunkA.payload.title ≠ chunkB.payload.title ∧
    (formatSources [chunkA, chunkB]).length = 1 := by decide

/-- First-seen-per-key deduplication, stated independently of the seen-set
loop: keep the first chunk of each key, drop every later chunk with the
same key. -/
def formatSourcesSpec : List Chunk → List Source
  | [] => []
  | c :: rest =>
      mkSource c ::
        formatSourcesSpec (rest.filter (fun d => sourceKey d != sourceKey c))
termination_by l => l.length
decreasing_by
  simp only [List.length_cons]
  exact Nat.lt_succ_of_le (List.length_filter_le _ _)

/-- The seen-set loop agrees with the first-occurrence filter. -/
theorem formatSourcesGo_spec (rs : List Chunk) : ∀ (seen : List Str),
    formatSourcesGo rs seen =
      formatSourcesSpec (rs.filter (fun c => !(seen.contains (sourceKey c)))) := by
  induction rs with
  | nil =>
      intro seen
      simp [formatSourcesGo, formatSourcesSpec]
  | cons c rest ih =>
      intro seen
      rw [show formatSourcesGo (c :: rest) seen =
          if seen.contains (sourceKey c) then formatSourcesGo rest seen
          else mkSource c :: formatSourcesGo rest (sourceKey c :: seen)
          from rfl]
      rw [List.filter_cons]
      by_cases hc : seen.contains (sourceKey c) = true
      · rw [if_pos hc, hc]
        simp only [Bool.not_true, Bool.false_eq_true, if_false]
        exact ih seen
      · rw [if_neg hc]
        have hcf : seen.contains (sourceKey c) = false := by
          rwa [Bool.not_eq_true] at hc
        simp only [hcf, Bool.not_false, if_true]
        rw [show formatSourcesSpec
              (c :: rest.filter (fun d => !(seen.contains (sourceKey d)))) =
            mkSource c ::
              formatSourcesSpec
                ((rest.filter (fun d => !(seen.contains (sourceKey d)))).filter
                  (fun d => sourceKey d != sourceKey c))
            by simp [formatSourcesSpec]]
        congr 1
        rw [ih (sourceKey c :: seen), List.filter_filter]
        congr 1
        apply List.filter_congr
        intro d _
        show (!(((sourceKey c :: seen)).contains (sourceKey d))) =
          ((sourceKey d != sourceKey c) && !(seen.contains (sourceKey d)))
        rcases Decidable.em (sourceKey d = sourceKey c) with h | h <;>
          simp [List.contains_cons, Bool.not_or, h]

/-- Claim C9 (amended): `formatSources` produces exactly one entry per
distinct concatenated key `title + '-' + author` (not per `(title,
author)` pair — keys collide when the fields contain dashes), in
first-seen order, each entry built (including its rounded score) from the
first chunk carrying that key. -/
theorem C9_sources_dedup_by_key (rs : List Chunk) :
    formatSources rs = formatSourcesSpec rs := by
  rw [formatSources, formatSourcesGo_spec rs []]
  congr 1
  simp

/-!  ## Claim C5 (counterexample) — naive brace slicing -/

/-- Counterexample for C5: `parseAnswerJson` slices from the first `{` to
the *last* `}` (no brace-depth scan), so a complete JSON answer object
followed by one stray unmatched closing brace fails to parse, while the
object alone parses fine. -/
theorem C5_stray_brace_parse_fails :
    parseAnswerJson (str "\x7b\"answer\":\"ok\",\"followups\":[\"a\"]\x7d") =
      some { answer := str "ok", followups := [str "a"] } ∧
    parseAnswerJson (str "\x7b\"answer\":\"ok\",\"followups\":[\"a\"]\x7d\x7d") =
      none := by decide

/-!  ## Claim C8 — `normalizeFollowups` idempotence -/

/-- Counterexample for C8: the trailing-question-mark regex strips one
question mark per application, so a followup ending in `??` changes again
on the second pass. -/
theorem C8_normalizeFollowups_not_idempotent :
    normalizeFollowups (normalizeFollowups [str "ab??"]) ≠
      normalizeFollowups [str "ab??"] := by decide

/-- Unfolding of the dedup loop over a cons. -/
theorem dedupTake3Go_cons (x : Str) (rest seen : List Str) :
    dedupTake3Go (x :: rest) seen =
      if seen.contains (jsLower x) then dedupTake3Go rest seen
      else if seen.length + 1 ≥ 3 then [x]
      else x :: dedupTake3Go rest (jsLower x :: seen) := rfl

/-- Boolean `contains` says exactly list membership. -/
theorem containsStr_iff (l : List Str) (a : Str) :
    l.contains a = true ↔ a ∈ l := by
  simp [List.contains_eq_any_beq]

/-- Members of the dedup loop output come from its input. -/
theorem dedupTake3Go_mem (l : List Str) : ∀ (seen : List Str) (s : Str),
    s ∈ dedupTake3Go l seen → s ∈ l := by
  induction l with
  | nil => intro seen s h; simp [dedupTake3Go] at h
  | cons x rest ih =>
      intro seen s h
      rw [dedupTake3Go_cons] at h
      split_ifs at h with h1 h2
      · exact List.mem_cons_of_mem x (ih seen s h)
      · rw [List.mem_singleton] at h
        exact h ▸ List.mem_cons_self x rest
      · rcases List.mem_cons.mp h with h | h
        · exact h ▸ List.mem_cons_self x rest
        · exact List.mem_cons_of_mem x (ih _ s h)

/-- The dedup loop emits pairwise-distinct keys, none of them in `seen`. -/
theorem dedupTake3Go_keys (l : List Str) : ∀ (seen : List Str),
    List.Pairwise (fun a b => jsLower a ≠ jsLower b) (dedupTake3Go l seen) ∧
    ∀ s ∈ dedupTake3Go l seen, ¬ jsLower s ∈ seen := by
  induction l with
  | nil => intro seen; simp [dedupTake3Go]
  | cons x rest ih =>
      intro seen
      rw [dedupTake3Go_cons]
      split_ifs with h1 h2
      · exact ih seen
      · refine ⟨List.pairwise_singleton _ _, ?_⟩
        intro s hs
        rw [List.mem_singleton] at hs
        subst hs
        intro hmem
        rw [← containsStr_iff] at hmem
        rw [hmem] at h1
        exact h1 rfl
      · have hx : ¬ jsLower x ∈ seen := by
          intro hmem
          rw [← containsStr_iff] at hmem
          rw [hmem] at h1
          exact h1 rfl
        rcases ih (jsLower x :: seen) with ⟨hp, hnot⟩
        refine ⟨List.pairwise_cons.mpr ⟨?_, hp⟩, ?_⟩
        · intro s hs heq
          exact (hnot s hs) (heq ▸ List.mem_cons_self _ _)
        · intro s hs
          rcases List.mem_cons.mp hs with h | h
          · exact h ▸ hx
          · intro hmem
            exact (hnot s h) (List.mem_cons_of_mem _ hmem)

/-- The dedup loop caps its output at three entries. -/
theorem dedupTake3Go_length (l : List Str) : ∀ (seen : List Str),
    seen.length ≤ 2 → (dedupTake3Go l seen).length + seen.length ≤ 3 := by
  induction l with
  | nil => intro seen h; simp [dedupTake3Go]; omega
  | cons x rest ih =>
      intro seen h
      rw [dedupTake3Go_cons]
      split_ifs with h1 h2
      · exact ih seen h
      · simp only [List.length_singleton]; omega
      · have := ih (jsLower x :: seen) (by simp; omega)
        simp only [List.length_cons] at this ⊢
        omega

/-- The dedup loop is the identity on short lists with fresh, pairwise
distinct keys. -/
theorem dedupTake3Go_fix (l : List Str) : ∀ (seen : List Str),
    List.Pairwise (fun a b => jsLower a ≠ jsLower b) l →
    (∀ s ∈ l, ¬ jsLower s ∈ seen) →
    seen.length + l.length ≤ 3 →
    dedupTake3Go l seen = l := by
  induction l with
  | nil => intro seen _ _ _; rfl
  | cons x rest ih =>
      intro seen hpair hfresh hlen
      rw [dedupTake3Go_cons]
      have hcont : seen.contains (jsLower x) = false := by
        rw [Bool.eq_false_iff]
        intro hc
        exact hfresh x (List.mem_cons_self _ _) (containsStr_iff _ _ |>.mp hc)
      rw [hcont]
      simp only [Bool.false_eq_true, if_false]
      by_cases hcap : seen.length + 1 ≥ 3
      · rw [if_pos hcap]
        have : rest = [] := by
          rcases rest with _ | ⟨y, t⟩
          · rfl
          · exfalso; simp only [List.length_cons] at hlen; omega
        rw [this]
      · rw [if_neg hcap]
        congr 1
        apply ih (jsLower x :: seen) (List.Pairwise.of_cons hpair)
        · intro s hs
          simp only [List.mem_cons]
          rintro (heq | hmem)
          · exact (List.pairwise_cons.mp hpair).1 s hs heq.symm
          · exact hfresh s (List.mem_cons_of_mem _ hs) hmem
        · simp only [List.length_cons] at hlen ⊢
          omega

/-- A string list whose members are all fixed by `f` is fixed by `map f`. -/
theorem map_fix {f : Str → Str} (l : List Str) (h : ∀ x ∈ l, f x = x) :
    l.map f = l := by
  induction l with
  | nil => rfl
  | cons x rest ih =>
      simp only [List.map_cons, h x (List.mem_cons_self _ _)]
      rw [ih (fun y hy => h y (List.mem_cons_of_mem _ hy))]

/-- Every member of `normalizeFollowups l` is trim-fixed and free of
banned words; the output has pairwise-distinct lowercase keys and at most
three entries. -/
theorem normalizeFollowups_shape (l : List Str) :
    (∀ s ∈ normalizeFollowups l, jsTrim s = s ∧
      (bannedWords.any (fun w => containsSub w (jsLower s))) = false) ∧
    List.Pairwise (fun a b => jsLower a ≠ jsLower b) (normalizeFollowups l) ∧
    (normalizeFollowups l).length ≤ 3 := by
  unfold normalizeFollowups
  refine ⟨?_, (dedupTake3Go_keys _ []).1, by
    have := dedupTake3Go_length
      ((((l.map jsTrim).filter (fun s => !s.isEmpty)).map
          (fun item => jsTrim (stripTrailingQm item))).filter
        (fun item => !bannedWords.any (fun w => containsSub w (jsLower item))))
      [] (by simp)
    simpa using this⟩
  intro s hs
  have hmem := dedupTake3Go_mem _ [] s hs
  rcases List.mem_filter.mp hmem with ⟨hmap, hban⟩
  constructor
  · rcases List.mem_map.mp hmap with ⟨y, _, hy⟩
    rw [← hy]
    exact jsTrim_idem _
  · rwa [Bool.not_eq_eq_eq_not, Bool.not_true] at hban

/-- A trim-fixed string with no trailing question mark is fixed by the
question-mark-stripping regex. -/
theorem stripTrailingQm_fix (s : Str) (ht : dropRightWhile isJsSpace s = s)
    (h1 : endsWith (str "?") s = false) (h2 : endsWith (str "？") s = false) :
    stripTrailingQm s = s := by
  unfold stripTrailingQm
  rw [ht]
  dsimp only
  rw [h1, h2]
  simp

/-- Claim C8 (amended): `normalizeFollowups` is idempotent on every input
whose first normalisation leaves no empty item and no item still ending in
a question mark (the regex strips only one trailing `?` per pass, and an
item reduced to the empty string survives the first pass but is dropped by
the second). -/
theorem C8_normalizeFollowups_idempotent (l : List Str)
    (h : ∀ s ∈ normalizeFollowups l,
      s ≠ [] ∧ endsWith (str "?") s = false ∧ endsWith (str "？") s = false) :
    normalizeFollowups (normalizeFollowups l) = normalizeFollowups l := by
  rcases normalizeFollowups_shape l with ⟨hshape, hpair, hlen⟩
  have hTrim : ∀ s ∈ normalizeFollowups l, jsTrim s = s :=
    fun s hs => (hshape s hs).1
  have h2 : List.filter (fun s => !s.isEmpty) (normalizeFollowups l) =
      normalizeFollowups l :=
    List.filter_eq_self.mpr (fun s hs => by
      rcases h s hs with ⟨hne, _⟩
      simp [List.isEmpty_iff, hne])
  have h3 : List.map (fun item => jsTrim (stripTrailingQm item))
      (normalizeFollowups l) = normalizeFollowups l :=
    map_fix _ (fun s hs => by
      rcases h s hs with ⟨_, hq1, hq2⟩
      rw [stripTrailingQm_fix s (trim_fix_both s (hTrim s hs)).2 hq1 hq2]
      exact hTrim s hs)
  have h4 : List.filter
      (fun item => !bannedWords.any (fun w => containsSub w (jsLower item)))
      (normalizeFollowups l) = normalizeFollowups l :=
    List.filter_eq_self.mpr (fun s hs => by
      rw [(hshape s hs).2]
      rfl)
  conv_lhs => rw [normalizeFollowups]
  rw [map_fix _ hTrim, h2, h3, h4]
  exact dedupTake3Go_fix _ [] hpair (by simp) (by simpa using hlen)

/-- Witness for C8 (amended) at a concrete two-element list satisfying
the hypothesis. -/
theorem C8_normalizeFollowups_idempotent_witness :
    (∀ s ∈ normalizeFollowups [str "Je peux aider", str "Autre chose"],
      s ≠ [] ∧ endsWith (str "?") s = false ∧ endsWith (str "？") s = false) ∧
    normalizeFollowups
        (normalizeFollowups [str "Je peux aider", str "Autre chose"]) =
      normalizeFollowups [str "Je peux aider", str "Autre chose"] :=
  ⟨by decide, C8_normalizeFollowups_idempotent _ (by decide)⟩

/-!  ## Claim C10 — `applyFollowupStyle` never empties the followup list -/

/-- Counterexample for C10: a candidate list whose only item is a bare
question mark normalises to a single *empty* string (the `filter(Boolean)`
runs before the question-mark stripping), and `coerceToOffer` returns an
empty input unchanged — so the styled list contains an empty string. -/
theorem C10_followup_style_empty_string :
    applyFollowupStyle cfgBase [str "?"] = [[]] := by decide

/-- `getDefaultFollowups` always has exactly three non-empty entries. -/
theorem getDefaultFollowups_shape (cfg : Config) :
    (getDefaultFollowups cfg).length = 3 ∧
    ∀ s ∈ getDefaultFollowups cfg, s ≠ [] := by
  have hlit : ∀ (a b : Str), a ≠ [] → a ++ b ≠ [] := fun a b ha => by simp [ha]
  unfold getDefaultFollowups
  split_ifs
  · refine ⟨rfl, ?_⟩
    intro s hs
    simp only [List.mem_cons, List.mem_singleton, List.not_mem_nil,
      or_false] at hs
    rcases hs with rfl | rfl | rfl <;> (apply hlit; (try apply hlit); decide)
  · refine ⟨rfl, ?_⟩
    intro s hs
    simp only [List.mem_cons, List.mem_singleton, List.not_mem_nil,
      or_false] at hs
    rcases hs with rfl | rfl | rfl <;> decide

/-- `coerceToOffer` maps a non-empty trim-fixed string to a non-empty
string: every branch returns either the trimmed input or a string with a
non-empty literal head. -/
theorem coerceToOffer_ne_nil (cfg : Config) (s : Str) (hs : jsTrim s = s)
    (hne : s ≠ []) : coerceToOffer cfg s ≠ [] := by
  have hlit : ∀ (a b : Str), a ≠ [] → a ++ b ≠ [] := fun a b ha => by simp [ha]
  have hemp : s.isEmpty = false := by
    rcases s with _ | ⟨c, t⟩
    · exact absurd rfl hne
    · rfl
  unfold coerceToOffer
  rw [hs]
  dsimp only
  rw [hemp]
  simp only [Bool.false_eq_true, if_false]
  split_ifs <;>
    first
      | exact hne
      | (apply hlit; (try apply hlit); decide)
      | decide

/-- `applyFollowupStyle` always returns between one and three entries. -/
theorem applyFollowupStyle_length (cfg : Config) (followups : List Str) :
    1 ≤ (applyFollowupStyle cfg followups).length ∧
    (applyFollowupStyle cfg followups).length ≤ 3 := by
  have hdef := getDefaultFollowups_shape cfg
  have hlen3 := (normalizeFollowups_shape followups).2.2
  unfold applyFollowupStyle
  by_cases hnorm : (normalizeFollowups followups).isEmpty
  · rw [if_pos hnorm, hdef.1]
    omega
  · rw [if_neg hnorm, List.length_map]
    have : normalizeFollowups followups ≠ [] := by
      intro hc
      rw [hc] at hnorm
      exact hnorm rfl
    have hpos : 0 < (normalizeFollowups followups).length :=
      List.length_pos.mpr this
    omega

/-- The followups attached by the shared chat post-processing are never
the empty list. -/
theorem postprocess_followups_ne_nil (cfg : Config) (content : Str) :
    (postprocessChatContent cfg content).followups ≠ [] := by
  unfold postprocessChatContent
  dsimp only
  cases hp : parseAnswerJson (jsTrim content) with
  | some parsed =>
      dsimp only
      have := applyFollowupStyle_length cfg parsed.followups
      intro hc
      rw [hc] at this
      simp at this
  | none =>
      dsimp only
      have := getDefaultFollowups_shape cfg
      intro hc
      rw [hc] at this
      simp at this

/-- Claim C10 (amended): `applyFollowupStyle` always returns between one
and three strings, and those strings are all non-empty *provided* the
normalisation of the input leaves no empty candidate (a candidate that is
a bare question mark yields an empty string — see the counterexample);
independently, every successful `generateAnswer` result carries a
non-empty followup list. -/
theorem C10_followup_style_bounds (cfg : Config) (followups : List Str)
    (primaryCall fallbackCall : Except Str Str) :
    (1 ≤ (applyFollowupStyle cfg followups).length ∧
      (applyFollowupStyle cfg followups).length ≤ 3) ∧
    ((∀ s ∈ normalizeFollowups followups, s ≠ []) →
      ∀ s ∈ applyFollowupStyle cfg followups, s ≠ []) ∧
    (∀ af, generateAnswer cfg primaryCall fallbackCall = Except.ok af →
      af.followups ≠ []) := by
  refine ⟨applyFollowupStyle_length cfg followups, ?_, ?_⟩
  · intro hne s hs
    unfold applyFollowupStyle at hs
    by_cases hnorm : (normalizeFollowups followups).isEmpty
    · rw [if_pos hnorm] at hs
      exact (getDefaultFollowups_shape cfg).2 s hs
    · rw [if_neg hnorm] at hs
      rcases List.mem_map.mp hs with ⟨y, hy, hys⟩
      rw [← hys]
      exact coerceToOffer_ne_nil cfg y
        ((normalizeFollowups_shape followups).1 y hy).1 (hne y hy)
  · intro af haf
    unfold generateAnswer at haf
    cases hp : primaryCall with
    | ok content =>
        rw [hp] at haf
        dsimp only at haf
        injection haf with haf
        rw [← haf]
        exact postprocess_followups_ne_nil cfg content
    | error e =>
        rw [hp] at haf
        dsimp only at haf
        by_cases hc : containsSub (str "maximum context length") e = true
        · rw [if_pos hc] at haf
          unfold generateAnswerFallback at haf
          cases hf : fallbackCall with
          | ok content =>
              rw [hf] at haf
              injection haf with haf
              rw [← haf]
              exact postprocess_followups_ne_nil cfg content
          | error e' =>
              rw [hf] at haf
              exact absurd haf (by simp)
        · rw [if_neg hc] at haf
          exact absurd haf (by simp)

/-- Witness for C10 at a concrete candidate list and a concrete successful
chat completion. -/
theorem C10_followup_style_bounds_witness :
    (∀ s ∈ normalizeFollowups [str "Un sujet"], s ≠ []) ∧
    (∀ s ∈ applyFollowupStyle cfgBase [str "Un sujet"], s ≠ []) ∧
    generateAnswer cfgBase (Except.ok (str "bonjour"))
        (Except.error (str "x")) =
      Except.ok (postprocessChatContent cfgBase (str "bonjour")) ∧
    (postprocessChatContent cfgBase (str "bonjour")).followups ≠ [] := by
  refine ⟨by decide, ?_, by rfl, ?_⟩
  · exact (C10_followup_style_bounds cfgBase [str "Un sujet"]
      (Except.ok (str "bonjour")) (Except.error (str "x"))).2.1 (by decide)
  · exact (C10_followup_style_bounds cfgBase [str "Un sujet"]
      (Except.ok (str "bonjour")) (Except.error (str "x"))).2.2 _ rfl

/-!  ## Claim C1 — short questions and the triage order -/

/-- The empty conversation context. -/
def ctxEmpty : Ctx := {}

instance {ε α : Type} [DecidableEq ε] [DecidableEq α] :
    DecidableEq (Except ε α) := fun x y =>
  match x, y with
  | Except.ok a, Except.ok b =>
      if h : a = b then isTrue (by rw [h])
      else isFalse (fun hc => h (by injection hc))
  | Except.error a, Except.error b =>
      if h : a = b then isTrue (by rw [h])
      else isFalse (fun hc => h (by injection hc))
  | Except.ok _, Except.error _ => isFalse (fun hc => Except.noConfusion hc)
  | Except.error _, Except.ok _ => isFalse (fun hc => Except.noConfusion hc)

set_option maxRecDepth 100000 in
/-- Counterexample for C1: the two-character question "ok" (trimmed length
≤ 3) is classified as small-talk, not vague — the small-talk stage runs
before the vague check — and with small-talk disallowed the envelope is
the `no_results` guidance, whose answer differs from the vague guidance. -/
theorem C1_short_question_not_always_vague :
    (jsTrim (str "ok")).length ≤ 3 ∧
    triage cfgBase ctxEmpty (str "ok") = TriageResult.smalltalk (str "ok") ∧
    processQuestion cfgBase ctxEmpty oEmpty (str "ok") =
      Except.ok (guidanceEnvelope cfgBase ctxEmpty (str "no_results") (str "ok")) ∧
    buildGuidanceAnswer cfgBase (str "no_results") ctxEmpty ≠
      buildGuidanceAnswer cfgBase (str "vague") ctxEmpty := by decide

/-- A question whose trimmed form has at most three characters is vague. -/
theorem isVague_of_short (q : Str) (h : (jsTrim q).length ≤ 3) :
    isVagueQuestion q = true := by
  unfold isVagueQuestion
  dsimp only
  split_ifs with h1 h2
  · rfl
  · rfl
  · exfalso
    rw [jsLower_length] at h2
    omega

/-- Claim C1 (amended): a question whose refined form has trimmed length
at most 3 *and is not captured by any earlier triage stage* (greeting,
small-talk, distance, math) is classified vague, and `processQuestion`
returns the vague guidance envelope without consulting any retrieval
oracle.  (As stated the claim is false: the earlier lexicons win — see the
counterexample.) -/
theorem C1_short_question_vague_when_unmatched (cfg : Config) (ctx : Ctx)
    (q : Str) (o : Oracles)
    (hlen : (jsTrim ((refineQuestion cfg ctx q).2)).length ≤ 3)
    (hg : isGreeting ((refineQuestion cfg ctx q).2) = false)
    (hst : isSmallTalk ((refineQuestion cfg ctx q).2) = false)
    (hd : isDistanceQuestion ((refineQuestion cfg ctx q).2) = false)
    (hm : trySolveMath ((refineQuestion cfg ctx q).2) = none) :
    triage cfg ctx q = TriageResult.vague ((refineQuestion cfg ctx q).2) ∧
    processQuestion cfg ctx o q =
      Except.ok (guidanceEnvelope cfg ctx (str "vague")
        ((refineQuestion cfg ctx q).2)) := by
  have htriage : triage cfg ctx q =
      TriageResult.vague ((refineQuestion cfg ctx q).2) := by
    unfold triage
    dsimp only
    rw [hg, hst, hd, hm, isVague_of_short _ hlen]
    simp
  refine ⟨htriage, ?_⟩
  unfold processQuestion
  rw [htriage]

/-- Witness for C1 (amended) at the two-character question "a?" (matches
no earlier lexicon, no digits). -/
theorem C1_short_question_vague_witness :
    ((jsTrim ((refineQuestion cfgBase ctxEmpty (str "a?")).2)).length ≤ 3 ∧
      isGreeting ((refineQuestion cfgBase ctxEmpty (str "a?")).2) = false ∧
      isSmallTalk ((refineQuestion cfgBase ctxEmpty (str "a?")).2) = false ∧
      isDistanceQuestion ((refineQuestion cfgBase ctxEmpty (str "a?")).2) = false ∧
      trySolveMath ((refineQuestion cfgBase ctxEmpty (str "a?")).2) = none) ∧
    triage cfgBase ctxEmpty (str "a?") =
      TriageResult.vague ((refineQuestion cfgBase ctxEmpty (str "a?")).2) ∧
    processQuestion cfgBase ctxEmpty oEmpty (str "a?") =
      Except.ok (guidanceEnvelope cfgBase ctxEmpty (str "vague")
        ((refineQuestion cfgBase ctxEmpty (str "a?")).2)) := by
  have h := C1_short_question_vague_when_unmatched cfgBase ctxEmpty
    (str "a?") oEmpty (by decide) (by decide) (by decide) (by decide)
    (by decide)
  exact ⟨⟨by decide, by decide, by decide, by decide, by decide⟩, h.1, h.2⟩

/-!  ## Claim C7 — greeting envelope -/

/-- `stripLeadingAckGo` returns the raw string whenever no ack prefix
(followed by a space) starts the lowered string. -/
theorem stripLeadingAckGo_no_match (raw lower : Str) :
    ∀ (l : List Str), (∀ p ∈ l, ((p ++ [' ']).isPrefixOf lower) = false) →
    stripLeadingAckGo raw lower l = raw := by
  intro l
  induction l with
  | nil => intro _; rfl
  | cons p rest ih =>
      intro h
      unfold stripLeadingAckGo
      split_ifs with h1 h2
      · rfl
      · exact absurd h2 (by
          rw [h p (List.mem_cons_self _ _)]
          exact Bool.false_ne_true)
      · exact ih (fun x hx => h x (List.mem_cons_of_mem _ hx))

/-- Core of C7, parameterised by the concrete greeting `g`. -/
theorem processQuestion_greeting_core (cfg : Config) (ctx : Ctx)
    (o : Oracles) (q g : Str)
    (hraw : jsLower (jsTrim q) = g)
    (h1 : ∀ p ∈ ackStripList, ((p ++ [' ']).isPrefixOf g) = false)
    (h2 : ackSet.contains g = false)
    (h3 : jsTrim g = g)
    (h4 : (strs ["salut", "bonjour", "hello", "coucou"]).contains g = true)
    (h5 : g ≠ []) :
    processQuestion cfg ctx o q =
      Except.ok
        { answer := buildWelcomeMessage cfg
          sources := []
          found := true
          followups := []
          contextOut := some { lastTopic := ctx.lastTopic, lastAnswer := []
                               lastQuestion := jsTrim q } } := by
  have hrawne : jsTrim q ≠ [] := by
    intro hc
    apply h5
    rw [← hraw, hc]
    rfl
  have hrawemp : (jsTrim q).isEmpty = false := by
    rcases hq : jsTrim q with _ | ⟨c, t⟩
    · exact absurd hq hrawne
    · rfl
  have htrim2 : jsTrim (jsTrim q) = jsTrim q := jsTrim_idem q
  have hstrip : stripLeadingAck q = jsTrim q := by
    unfold stripLeadingAck
    dsimp only
    rw [hrawemp]
    simp only [Bool.false_eq_true, if_false]
    rw [hraw]
    exact stripLeadingAckGo_no_match _ _ _ h1
  have hlow2 : jsLower (jsTrim (jsTrim q)) = g := by rw [htrim2, hraw]
  have hrw : rewriteIfAck cfg ctx (jsTrim q) =
      { text := jsTrim q, baseQuestion := none, focus := none } := by
    unfold rewriteIfAck
    rw [htrim2]
    dsimp only
    rw [hrawemp]
    simp only [Bool.false_eq_true, if_false]
    rw [if_neg]
    intro hcon
    rw [hraw, h2] at hcon
    exact Bool.false_ne_true hcon.2
  have hrefq : refineQuestion cfg ctx q =
      ({ text := jsTrim q, baseQuestion := none, focus := none }, jsTrim q) := by
    unfold refineQuestion
    rw [hstrip]
    dsimp only
    rw [hrw]
    dsimp only
    rw [hrawemp]
    simp
  have hisg : isGreeting (jsTrim q) = true := by
    unfold isGreeting
    rw [hraw, h3]
    exact h4
  have htriage : triage cfg ctx q = TriageResult.greeting (jsTrim q) := by
    unfold triage
    rw [hrefq]
    dsimp only
    rw [hisg]
    simp
  unfold processQuestion
  rw [htriage]

/-- Claim C7: for every question that, after lower-casing and trimming,
exactly matches the fixed greeting lexicon, `processQuestion` returns an
envelope with `found:true`, empty sources, empty followups, and the
configured welcome text as answer. -/
theorem C7_greeting_envelope (cfg : Config) (ctx : Ctx) (o : Oracles)
    (q : Str) (h : isGreeting q = true) :
    processQuestion cfg ctx o q =
      Except.ok
        { answer := buildWelcomeMessage cfg
          sources := []
          found := true
          followups := []
          contextOut := some { lastTopic := ctx.lastTopic, lastAnswer := []
                               lastQuestion := jsTrim q } } := by
  unfold isGreeting at h
  have hmem := (containsStr_iff _ _).mp h
  have hraw : jsLower (jsTrim q) = jsTrim (jsLower q) := (jsTrim_jsLower q).symm
  simp only [strs, List.map, List.mem_cons, List.not_mem_nil, or_false] at hmem
  rcases hmem with hg | hg | hg | hg <;>
    exact processQuestion_greeting_core cfg ctx o q _ (hraw.trans hg)
      (by decide) (by decide) (by decide) (by decide) (by decide)

/-- Witness for C7 at the concrete question `" Bonjour "`. -/
theorem C7_greeting_envelope_witness :
    isGreeting (str " Bonjour ") = true ∧
    processQuestion cfgBase ctxEmpty oEmpty (str " Bonjour ") =
      Except.ok
        { answer := buildWelcomeMessage cfgBase
          sources := []
          found := true
          followups := []
          contextOut := some { lastTopic := ctxEmpty.lastTopic, lastAnswer := []
                               lastQuestion := jsTrim (str " Bonjour ") } } :=
  ⟨by decide, C7_greeting_envelope cfgBase ctxEmpty oEmpty (str " Bonjour ")
    (by decide)⟩

/-!  ## Claim C3 — per-chunk truncation -/

/-- A list ends with its appended suffix. -/
theorem endsWith_append (l suffix : Str) :
    endsWith suffix (l ++ suffix) = true := by
  unfold endsWith
  rw [List.reverse_append]
  exact List.isPrefixOf_iff_prefix.mpr (List.prefix_append _ _)

/-- Over the 6000-character window, `truncateChunk` emits at most
6000 + 11 characters and always appends the continuation marker. -/
theorem truncateChunk_long (text : Str) (h : 6000 < text.length) :
    (truncateChunk text 1500).length ≤ 6011 ∧
    endsWith continuationMarker (truncateChunk text 1500) = true := by
  unfold truncateChunk
  rw [if_neg (by omega)]
  dsimp only
  have hmlen : continuationMarker.length = 11 := by decide
  have htk : (text.take 6000).length = 6000 := by
    rw [List.length_take]
    omega
  split_ifs
  · constructor
    · simp only [List.length_append, hmlen, List.length_take]
      omega
    · exact endsWith_append _ _
  · constructor
    · rw [List.length_append, hmlen, htk]
    · exact endsWith_append _ _

/-- At or below the 6000-character window, `truncateChunk` is the
identity (regardless of the estimated token count). -/
theorem truncateChunk_short (text : Str) (h : text.length ≤ 6000) :
    truncateChunk text 1500 = text := by
  unfold truncateChunk
  rw [if_pos (by omega)]

/-- The 1667 one-character-word text: estimated tokens 1501 (above the
1500 cap) but only 3333 characters (inside the 6000-character window). -/
def longRunText : Str := 'a' :: (List.replicate 1666 (str " a")).flatten

/-- The search hit carrying `longRunText`. -/
def chunkLong : Chunk :=
  { score := 4/5
    payload := { text := longRunText, title := str "T", author := str "A",
                 date := str "D" } }

/-- Evaluate `estimateTokens` at a concrete string whose word and
character counts are known (rational arithmetic is opaque to `decide`, so
the ceiling is evaluated by `norm_num` through this helper). -/
theorem estimateTokens_eval (s : Str) (w c : ℕ) (k : ℤ)
    (hne : s.isEmpty = false)
    (hw : (jsSplitWs s).length = w) (hc : s.length = c)
    (hk : (⌈((w : ℚ) * (13/10) + (c : ℚ) / 4) / 2⌉ : ℤ) = k) :
    estimateTokens s = k := by
  unfold estimateTokens
  rw [hne]
  simp only [Bool.false_eq_true, if_false]
  rw [hw, hc]
  exact hk

/-- Length of `n` flattened copies of a block. -/
theorem flatten_replicate_length (u : Str) : ∀ n : ℕ,
    ((List.replicate n u).flatten).length = n * u.length := by
  intro n
  induction n with
  | zero => simp
  | succ m ih =>
      rw [List.replicate_succ, List.flatten_cons, List.length_append, ih]
      ring

/-- One step of `splitWsGo`: whitespace while in a word closes the piece. -/
theorem splitWsGo_cons_ws_some (c : Char) (rest cur : Str)
    (h : isJsSpace c = true) :
    splitWsGo (c :: rest) (some cur) = cur.reverse :: splitWsGo rest none := by
  simp [splitWsGo, h]

/-- One step of `splitWsGo`: a word character extends the current piece. -/
theorem splitWsGo_cons_nonws_some (c : Char) (rest cur : Str)
    (h : isJsSpace c = false) :
    splitWsGo (c :: rest) (some cur) = splitWsGo rest (some (c :: cur)) := by
  simp [splitWsGo, h]

/-- One step of `splitWsGo`: whitespace inside a whitespace run. -/
theorem splitWsGo_cons_ws_none (c : Char) (rest : Str)
    (h : isJsSpace c = true) :
    splitWsGo (c :: rest) none = splitWsGo rest none := by
  simp [splitWsGo, h]

/-- One step of `splitWsGo`: a word character opens a new piece. -/
theorem splitWsGo_cons_nonws_none (c : Char) (rest : Str)
    (h : isJsSpace c = false) :
    splitWsGo (c :: rest) none = splitWsGo rest (some [c]) := by
  simp [splitWsGo, h]

/-- `split(/\s+/)` piece count over `n` copies of `" a"`, entered
mid-word: one piece per copy plus the closing piece. -/
theorem splitWsGo_repeat_count : ∀ (n : ℕ) (cur : Str),
    (splitWsGo ((List.replicate n (str " a")).flatten) (some cur)).length
      = n + 1 := by
  intro n
  induction n with
  | zero => intro cur; rfl
  | succ m ih =>
      intro cur
      rw [List.replicate_succ, List.flatten_cons]
      show (splitWsGo
          (' ' :: 'a' :: (List.replicate m (str " a")).flatten)
          (some cur)).length = m + 2
      rw [splitWsGo_cons_ws_some _ _ _ (by decide),
        splitWsGo_cons_nonws_none _ _ (by decide), List.length_cons, ih]

/-- The last character of the repeated text is `'a'`. -/
theorem repeatText_getLast : ∀ n : ℕ,
    ('a' :: (List.replicate n (str " a")).flatten).getLast? = some 'a' := by
  intro n
  induction n with
  | zero => rfl
  | succ m ih =>
      rw [List.replicate_succ, List.flatten_cons]
      show ('a' :: ' ' :: 'a' ::
          (List.replicate m (str " a")).flatten).getLast? = some 'a'
      rw [List.getLast?_cons_cons, List.getLast?_cons_cons]
      exact ih

/-- `endsWith` is `false` whenever the final characters differ. -/
theorem endsWith_false_of_last_ne (m l : Str) (c d : Char)
    (hm : m.getLast? = some c) (hl : l.getLast? = some d)
    (hne : (c == d) = false) :
    endsWith m l = false := by
  unfold endsWith
  rw [← List.head?_reverse] at hm hl
  cases hmr : m.reverse with
  | nil => rw [hmr] at hm; exact absurd hm (by simp)
  | cons a t =>
      cases hlr : l.reverse with
      | nil => rw [hlr] at hl; exact absurd hl (by simp)
      | cons b u =>
          rw [hmr] at hm; rw [hlr] at hl
          simp only [List.head?_cons, Option.some.injEq] at hm hl
          subst hm
          subst hl
          simp [List.isPrefixOf, hne]

/-- Word and character counts of `longRunText`. -/
theorem longRunText_counts :
    longRunText.isEmpty = false ∧
    (jsSplitWs longRunText).length = 1667 ∧ longRunText.length = 3333 := by
  refine ⟨rfl, ?_, ?_⟩
  · show (splitWsGo ('a' :: (List.replicate 1666 (str " a")).flatten)
      (some [])).length = 1667
    rw [splitWsGo_cons_nonws_some _ _ _ (by decide), splitWsGo_repeat_count]
  · show ('a' :: (List.replicate 1666 (str " a")).flatten).length = 3333
    rw [List.length_cons, flatten_replicate_length,
      show (str " a").length = 2 from rfl]

/-- `estimateTokens longRunText = 1501`. -/
theorem longRunText_tokens : estimateTokens longRunText = 1501 :=
  estimateTokens_eval _ 1667 3333 1501 longRunText_counts.1
    longRunText_counts.2.1 longRunText_counts.2.2
    (by rw [Int.ceil_eq_iff]; constructor <;> norm_num)

/-- `truncateChunk` leaves `longRunText` untouched (3333 ≤ 6000 chars),
and the text does not end with the continuation marker. -/
theorem longRunText_untouched :
    truncateChunk longRunText MAX_CHUNK_SIZE_TOKENS.toNat = longRunText ∧
    endsWith continuationMarker longRunText = false := by
  constructor
  · exact truncateChunk_short longRunText
      (by rw [longRunText_counts.2.2]; decide)
  · exact endsWith_false_of_last_ne _ _ ']' 'a' (by decide)
      (repeatText_getLast 1666) (by decide)

/-- Counterexample for C3: a chunk whose estimated token count (1501)
exceeds the 1500 cap but whose character count (3333) is inside the
6000-character window is returned *unchanged* by
`truncateChunk`/`filterResultsByTokenLimit`: its replacement neither ends
with the continuation marker nor estimates at or below the cap. -/
theorem C3_truncation_not_token_bounded :
    estimateTokens longRunText > MAX_CHUNK_SIZE_TOKENS ∧
    truncateChunk longRunText MAX_CHUNK_SIZE_TOKENS.toNat = longRunText ∧
    endsWith continuationMarker longRunText = false ∧
    filterResultsByTokenLimit [chunkLong] = [chunkLong] := by
  refine ⟨by rw [longRunText_tokens]; decide, longRunText_untouched.1,
    longRunText_untouched.2, ?_⟩
  show filterResultsByTokenLimitGo [chunkLong] 0 = [chunkLong]
  unfold filterResultsByTokenLimitGo
  dsimp only
  rw [show chunkLong.payload.text = longRunText from rfl, longRunText_tokens]
  have h1 : ((1501 : ℤ) > MAX_CHUNK_SIZE_TOKENS) := by decide
  rw [if_pos h1, longRunText_untouched.1, longRunText_tokens]
  have h2 : ((0 : ℤ) + 1501 ≤ MAX_CONTEXT_TOKENS) := by decide
  rw [if_pos h2]
  rfl

/-- Claim C3 (amended): `truncateChunk` bounds *characters*, not
estimated tokens — a chunk longer than `4 × MAX_CHUNK_SIZE_TOKENS`
characters is cut to at most that window plus the continuation marker
(which it then ends with), while a chunk inside the window is returned
unchanged even when its estimated token count exceeds the cap. -/
theorem C3_truncation_char_bounded (text : Str) :
    (4 * MAX_CHUNK_SIZE_TOKENS.toNat < text.length →
      (truncateChunk text MAX_CHUNK_SIZE_TOKENS.toNat).length ≤
        4 * MAX_CHUNK_SIZE_TOKENS.toNat + continuationMarker.length ∧
      endsWith continuationMarker
        (truncateChunk text MAX_CHUNK_SIZE_TOKENS.toNat) = true) ∧
    (text.length ≤ 4 * MAX_CHUNK_SIZE_TOKENS.toNat →
      truncateChunk text MAX_CHUNK_SIZE_TOKENS.toNat = text) := by
  have hm : MAX_CHUNK_SIZE_TOKENS.toNat = 1500 := by decide
  rw [hm]
  constructor
  · intro h
    have := truncateChunk_long text (by omega)
    refine ⟨?_, this.2⟩
    have hmlen : continuationMarker.length = 11 := by decide
    omega
  · intro h
    exact truncateChunk_short text (by omega)

/-- Witness for C3 (amended) at a 6001-character chunk (truncated, marker
appended) and a 10-character chunk (unchanged). -/
theorem C3_truncation_char_bounded_witness :
    (4 * MAX_CHUNK_SIZE_TOKENS.toNat < (List.replicate 6001 'a').length ∧
      (truncateChunk (List.replicate 6001 'a')
          MAX_CHUNK_SIZE_TOKENS.toNat).length ≤
        4 * MAX_CHUNK_SIZE_TOKENS.toNat + continuationMarker.length ∧
      endsWith continuationMarker
        (truncateChunk (List.replicate 6001 'a')
          MAX_CHUNK_SIZE_TOKENS.toNat) = true) ∧
    ((str "dix chars").length ≤ 4 * MAX_CHUNK_SIZE_TOKENS.toNat ∧
      truncateChunk (str "dix chars") MAX_CHUNK_SIZE_TOKENS.toNat =
        str "dix chars") := by
  have h1 : 4 * MAX_CHUNK_SIZE_TOKENS.toNat < (List.replicate 6001 'a').length := by
    rw [List.length_replicate]
    decide
  have h2 : (str "dix chars").length ≤ 4 * MAX_CHUNK_SIZE_TOKENS.toNat := by decide
  have ha := (C3_truncation_char_bounded (List.replicate 6001 'a')).1 h1
  have hb := (C3_truncation_char_bounded (str "dix chars")).2 h2
  exact ⟨⟨h1, ha.1, ha.2⟩, ⟨h2, hb⟩⟩

/-!  ## Claim C4 — the 14000-token hard-ceiling reduction -/

/-- `split(/\s+/)` produces at most one piece per character, plus one. -/
theorem splitWsGo_length_le (s : Str) : ∀ st : Option Str,
    (splitWsGo s st).length ≤ s.length + 1 := by
  induction s with
  | nil => intro st; cases st <;> simp [splitWsGo]
  | cons c rest ih =>
      intro st
      cases st with
      | none =>
          simp only [splitWsGo]
          split_ifs
          · have := ih none
            simp only [List.length_cons]
            omega
          · have := ih (some [c])
            simp only [List.length_cons]
            omega
      | some cur =>
          simp only [splitWsGo]
          split_ifs
          · have := ih none
            simp only [List.length_cons]
            omega
          · have := ih (some (c :: cur))
            simp only [List.length_cons]
            omega

/-- Upper bound for `estimateTokens` from a character-count bound. -/
theorem estimateTokens_le_of_length_le (s : Str) (c : ℕ) (h : s.length ≤ c) :
    estimateTokens s ≤ ⌈(((c : ℚ) + 1) * (13/10) + (c : ℚ) / 4) / 2⌉ := by
  unfold estimateTokens
  split_ifs
  · exact Int.ceil_nonneg (by positivity)
  · dsimp only
    apply Int.ceil_le_ceil
    have hw : ((jsSplitWs s).length : ℚ) ≤ (c : ℚ) + 1 := by
      have h1 := splitWsGo_length_le s (some [])
      have h2 : (jsSplitWs s).length ≤ c + 1 := by
        unfold jsSplitWs
        omega
      exact_mod_cast h2
    have hc : ((s.length : ℚ)) ≤ (c : ℚ) := by exact_mod_cast h
    gcongr

/-- A text of at most 6011 characters estimates to at most 4660 tokens. -/
theorem estimateTokens_le_4660 (s : Str) (h : s.length ≤ 6011) :
    estimateTokens s ≤ 4660 := by
  have hb := estimateTokens_le_of_length_le s 6011 h
  have hc : (⌈(((6011 : ℚ) + 1) * (13/10) + (6011 : ℚ) / 4) / 2⌉ : ℤ)
      = 4660 := by
    rw [Int.ceil_eq_iff]
    constructor <;> norm_num
  push_cast at hb
  omega

/-- `filterResultsByTokenLimit` never empties a nonempty result list: the
first chunk is capped at 6011 characters by `truncateChunk`, hence at most
4660 estimated tokens, well under the 12000 budget. -/
theorem filterResultsByTokenLimit_ne_nil (r : Chunk) (rest : List Chunk) :
    filterResultsByTokenLimit (r :: rest) ≠ [] := by
  show filterResultsByTokenLimitGo (r :: rest) 0 ≠ []
  unfold filterResultsByTokenLimitGo
  dsimp only
  have hcond : (0 : ℤ) + estimateTokens
      (if estimateTokens r.payload.text > MAX_CHUNK_SIZE_TOKENS then
        truncateChunk r.payload.text MAX_CHUNK_SIZE_TOKENS.toNat
      else r.payload.text) ≤ MAX_CONTEXT_TOKENS := by
    rw [show MAX_CONTEXT_TOKENS = 12000 from rfl]
    split_ifs with hbig
    · rw [show MAX_CHUNK_SIZE_TOKENS.toNat = 1500 from rfl]
      rcases le_or_lt r.payload.text.length 6000 with hlen | hlen
      · rw [truncateChunk_short _ hlen]
        have := estimateTokens_le_4660 r.payload.text (by omega)
        omega
      · have hl := truncateChunk_long r.payload.text hlen
        have := estimateTokens_le_4660 _ hl.1
        omega
    · rw [show MAX_CHUNK_SIZE_TOKENS = 1500 from rfl] at hbig
      omega
  rw [if_pos hcond]
  exact List.cons_ne_nil _ _

/-- Any successful `processQuestionWithContext` run returns `found = true`
— the function performs no budget check at all. -/
theorem processQuestionWithContext_found (cfg : Config) (o : Oracles)
    (l : List Chunk) (env : Envelope)
    (h : processQuestionWithContext cfg o l = Except.ok env) :
    env.found = true := by
  unfold processQuestionWithContext at h
  cases hg : generateAnswer cfg o.chatPrimary o.chatFallback with
  | error e => rw [hg] at h; cases h
  | ok af =>
      rw [hg] at h
      dsimp only at h
      injection h with h
      rw [← h]

/-- The retrieval stage under a post-filter hard-ceiling overflow: a
single drop of the last filtered chunk (keeping at least one) and
delegation to `processQuestionWithContext` — no recursion, no re-check. -/
theorem retrievalStage_overflow (cfg : Config) (ctx : Ctx) (o : Oracles)
    (question refined : Str) (rewritten : RewriteResult)
    (vec : List ℚ) (res : List Chunk)
    (hemb : o.embed = Except.ok vec)
    (hsearch : o.search vec MAX_CHUNKS_TO_RETRIEVE
      (getAdaptiveThreshold cfg question) = Except.ok res)
    (hne : res ≠ [])
    (hover : estimateTokens
      (buildContext (filterResultsByTokenLimit res) ++ refined) > 14000) :
    retrievalStage cfg ctx o question refined rewritten =
      processQuestionWithContext cfg o
        ((filterResultsByTokenLimit res).take
          (max 1 ((filterResultsByTokenLimit res).length - 1))) := by
  obtain ⟨r, rest, rfl⟩ := List.exists_cons_of_ne_nil hne
  unfold retrievalStage
  rw [hemb]
  dsimp only
  rw [hsearch]
  dsimp only
  rw [if_neg (by simp)]
  dsimp only
  rw [if_neg (by simp)]
  try dsimp only
  rw [if_neg (by rw [List.isEmpty_iff]
                 exact filterResultsByTokenLimit_ne_nil r rest)]
  try dsimp only
  rw [if_pos hover]

/-- Claim C4 (amended): when the post-filter context + question exceed
the 14000-token hard ceiling, the retrieval stage of `processQuestion`
drops the lowest-ranked filtered chunk *once* (keeping at least one) and
delegates to `processQuestionWithContext`, which re-checks nothing and
returns `found:true` on success — never the "too long" envelope; and the
"too long" branch cannot arise for a nonempty search result because the
filter always keeps the first chunk. -/
theorem C4_overflow_single_drop (cfg : Config) (ctx : Ctx) (o : Oracles)
    (question refined : Str) (rewritten : RewriteResult)
    (vec : List ℚ) (res : List Chunk)
    (hemb : o.embed = Except.ok vec)
    (hsearch : o.search vec MAX_CHUNKS_TO_RETRIEVE
      (getAdaptiveThreshold cfg question) = Except.ok res)
    (hne : res ≠ [])
    (hover : estimateTokens
      (buildContext (filterResultsByTokenLimit res) ++ refined) > 14000) :
    retrievalStage cfg ctx o question refined rewritten =
      processQuestionWithContext cfg o
        ((filterResultsByTokenLimit res).take
          (max 1 ((filterResultsByTokenLimit res).length - 1))) ∧
    (∀ env, retrievalStage cfg ctx o question refined rewritten =
        Except.ok env → env.found = true) ∧
    retrievalStage cfg ctx o question refined rewritten ≠
      Except.ok tooLongEnvelope ∧
    filterResultsByTokenLimit res ≠ [] := by
  have heq := retrievalStage_overflow cfg ctx o question refined rewritten
    vec res hemb hsearch hne hover
  refine ⟨heq, ?_, ?_, ?_⟩
  · intro env h
    rw [heq] at h
    exact processQuestionWithContext_found _ _ _ _ h
  · intro hcon
    rw [heq] at hcon
    have := processQuestionWithContext_found _ _ _ _ hcon
    exact absurd this (by decide)
  · obtain ⟨r, rest, rfl⟩ := List.exists_cons_of_ne_nil hne
    exact filterResultsByTokenLimit_ne_nil r rest

/-- A tiny retrieved chunk: 5 characters, 2 estimated tokens. -/
def chunkSmall : Chunk :=
  { score := 4/5
    payload := { text := str "Texte", title := str "T", author := str "A",
                 date := str "D" } }

/-- The C4 question: `"a"` followed by 15600 copies of `" a"` — 31201
characters / 15601 words, inflating the context+question estimate past the
14000 hard ceiling while the single retrieved chunk is tiny. -/
def qLong : Str := 'a' :: (List.replicate 15600 (str " a")).flatten

/-- The C4 oracles: embedding fine, every search returns the small chunk,
the primary completion succeeds. -/
def oC4 : Oracles :=
  { embed := Except.ok []
    search := fun _ _ _ => Except.ok [chunkSmall]
    chatPrimary := Except.ok (str "Voici.")
    chatFallback := Except.error (str "fallback unavailable")
    chatOffTopic := Except.error (str "chat unavailable") }

/-- `estimateTokens "Texte" = 2`. -/
theorem chunkSmall_tokens : estimateTokens (str "Texte") = 2 :=
  estimateTokens_eval _ 1 5 2 rfl (by decide) rfl
    (by rw [Int.ceil_eq_iff]; constructor <;> norm_num)

/-- The token-budget filter passes the small chunk through unchanged. -/
theorem filter_chunkSmall :
    filterResultsByTokenLimit [chunkSmall] = [chunkSmall] := by
  show filterResultsByTokenLimitGo [chunkSmall] 0 = [chunkSmall]
  unfold filterResultsByTokenLimitGo
  dsimp only
  rw [show chunkSmall.payload.text = str "Texte" from rfl, chunkSmall_tokens]
  have hno : ¬((2 : ℤ) > MAX_CHUNK_SIZE_TOKENS) := by decide
  rw [if_neg hno, chunkSmall_tokens]
  have hyes : ((0 : ℤ) + 2 ≤ MAX_CONTEXT_TOKENS) := by decide
  rw [if_pos hyes]
  rfl

/-- `qLong` has 31201 characters. -/
theorem qLong_length : qLong.length = 31201 := by
  show ('a' :: (List.replicate 15600 (str " a")).flatten).length = 31201
  rw [List.length_cons, flatten_replicate_length,
    show (str " a").length = 2 from rfl]

/-- The context+question estimate of the C4 scenario is 14045 tokens. -/
theorem qLong_overflow :
    estimateTokens
      (buildContext (filterResultsByTokenLimit [chunkSmall]) ++ qLong) >
      14000 := by
  have hb : buildContext (filterResultsByTokenLimit [chunkSmall]) =
      str "[Source 1]\nTexte" := by
    rw [filter_chunkSmall]
    rfl
  have hcount : (jsSplitWs (str "[Source 1]\nTexte" ++ qLong)).length
      = 15603 := by
    show (splitWsGo ('[' :: 'S' :: 'o' :: 'u' :: 'r' :: 'c' :: 'e' :: ' ' ::
      '1' :: ']' :: '\n' :: 'T' :: 'e' :: 'x' :: 't' :: 'e' :: 'a' ::
      (List.replicate 15600 (str " a")).flatten) (some [])).length = 15603
    rw [splitWsGo_cons_nonws_some '[' _ _ (by decide),
      splitWsGo_cons_nonws_some 'S' _ _ (by decide),
      splitWsGo_cons_nonws_some 'o' _ _ (by decide),
      splitWsGo_cons_nonws_some 'u' _ _ (by decide),
      splitWsGo_cons_nonws_some 'r' _ _ (by decide),
      splitWsGo_cons_nonws_some 'c' _ _ (by decide),
      splitWsGo_cons_nonws_some 'e' _ _ (by decide),
      splitWsGo_cons_ws_some ' ' _ _ (by decide),
      splitWsGo_cons_nonws_none '1' _ (by decide),
      splitWsGo_cons_nonws_some ']' _ _ (by decide),
      splitWsGo_cons_ws_some '\n' _ _ (by decide),
      splitWsGo_cons_nonws_none 'T' _ (by decide),
      splitWsGo_cons_nonws_some 'e' _ _ (by decide),
      splitWsGo_cons_nonws_some 'x' _ _ (by decide),
      splitWsGo_cons_nonws_some 't' _ _ (by decide),
      splitWsGo_cons_nonws_some 'e' _ _ (by decide),
      splitWsGo_cons_nonws_some 'a' _ _ (by decide),
      List.length_cons, List.length_cons, splitWsGo_repeat_count]
  have hlen : (str "[Source 1]\nTexte" ++ qLong).length = 31217 := by
    rw [List.length_append, qLong_length,
      show (str "[Source 1]\nTexte").length = 16 from rfl]
  have hest := estimateTokens_eval (str "[Source 1]\nTexte" ++ qLong)
    15603 31217 14045 rfl hcount hlen
    (by rw [Int.ceil_eq_iff]; constructor <;> norm_num)
  rw [hb, hest]
  decide

/-- Counterexample for C4: with a single tiny retrieved chunk and a huge
question, the post-filter estimate (14045) exceeds the hard ceiling, the
"reduction" keeps the very same single chunk (nothing can be dropped), and
the stage still returns a `found:true` envelope through
`processQuestionWithContext` — no recursion, no re-check, and no graceful
"too long" envelope even though a single chunk does not fit. -/
theorem C4_overflow_not_graceful :
    estimateTokens
      (buildContext (filterResultsByTokenLimit [chunkSmall]) ++ qLong) >
      14000 ∧
    (filterResultsByTokenLimit [chunkSmall]).take
        (max 1 ((filterResultsByTokenLimit [chunkSmall]).length - 1)) =
      filterResultsByTokenLimit [chunkSmall] ∧
    retrievalStage cfgBase ctxEmpty oC4 qLong qLong { text := qLong } =
      processQuestionWithContext cfgBase oC4 [chunkSmall] ∧
    (retrievalStage cfgBase ctxEmpty oC4 qLong qLong
        { text := qLong }).toOption.map Envelope.found = some true := by
  have heq := retrievalStage_overflow cfgBase ctxEmpty oC4 qLong qLong
    { text := qLong } [] [chunkSmall] rfl rfl (by simp) qLong_overflow
  have htake : (filterResultsByTokenLimit [chunkSmall]).take
      (max 1 ((filterResultsByTokenLimit [chunkSmall]).length - 1)) =
      filterResultsByTokenLimit [chunkSmall] := by
    rw [filter_chunkSmall]
    rfl
  refine ⟨qLong_overflow, htake, ?_, ?_⟩
  · rw [heq, htake, filter_chunkSmall]
  · rw [heq, htake, filter_chunkSmall]
    rfl

/-- Witness for C4 (amended) at the concrete C4 scenario: a successful
embedding, one tiny retrieved chunk, and a 31201-character question. -/
theorem C4_overflow_single_drop_witness :
    (oC4.embed = Except.ok [] ∧
     oC4.search [] MAX_CHUNKS_TO_RETRIEVE
       (getAdaptiveThreshold cfgBase qLong) = Except.ok [chunkSmall] ∧
     ([chunkSmall] : List Chunk) ≠ [] ∧
     estimateTokens
       (buildContext (filterResultsByTokenLimit [chunkSmall]) ++ qLong) >
       14000) ∧
    (retrievalStage cfgBase ctxEmpty oC4 qLong qLong { text := qLong } =
       processQuestionWithContext cfgBase oC4
         ((filterResultsByTokenLimit [chunkSmall]).take
           (max 1 ((filterResultsByTokenLimit [chunkSmall]).length - 1))) ∧
     (∀ env, retrievalStage cfgBase ctxEmpty oC4 qLong qLong
         { text := qLong } = Except.ok env → env.found = true) ∧
     retrievalStage cfgBase ctxEmpty oC4 qLong qLong { text := qLong } ≠
       Except.ok tooLongEnvelope ∧
     filterResultsByTokenLimit [chunkSmall] ≠ []) :=
  ⟨⟨rfl, rfl, by simp, qLong_overflow⟩,
   C4_overflow_single_drop cfgBase ctxEmpty oC4 qLong qLong
     { text := qLong } [] [chunkSmall] rfl rfl (by simp) qLong_overflow⟩

/-!  ## Claim C5 (amended) — the first-{ / last-} slice, symbolically -/

set_option maxHeartbeats 1000000 in
/-- `parseJStrF` on a body of plain characters (no quote, no backslash,
no control character) followed by the closing quote. -/
theorem parseJStrF_plain : ∀ (a : Str) (fuel : ℕ) (rest : Str),
    a.length < fuel →
    (∀ c ∈ a, c ≠ '"' ∧ c ≠ '\\' ∧ 0x20 ≤ c.toNat) →
    parseJStrF fuel (a ++ '"' :: rest) = some (a, rest) := by
  intro a
  induction a with
  | nil =>
      intro fuel rest hf _
      cases fuel with
      | zero => simp at hf
      | succ f =>
          show parseJStrF (f + 1) ('"' :: rest) = some ([], rest)
          rfl
  | cons c t ih =>
      intro fuel rest hf hch
      cases fuel with
      | zero => simp at hf
      | succ f =>
          obtain ⟨hq, hbs, hge⟩ := hch c (by simp)
          show parseJStrF (f + 1) (c :: (t ++ '"' :: rest)) =
            some (c :: t, rest)
          simp only [parseJStrF]
          rw [if_neg hq, if_neg hbs, if_neg (by omega)]
          rw [ih f rest (by simp at hf; omega)
            (fun d hd => hch d (by simp [hd]))]
          rfl

/-- `skipJsonWs` is the identity on a string starting with a
non-whitespace character. -/
theorem skipJsonWs_nonws (c : Char) (t : Str) (h : isJsonWs c = false) :
    skipJsonWs (c :: t) = c :: t := by
  simp [skipJsonWs, List.dropWhile_cons, h]

/-- `idxOfChar` finds the head character at index 0. -/
theorem idxOfChar_cons_self (c : Char) (t : Str) :
    idxOfChar c (c :: t) = some 0 := by
  simp [idxOfChar]

/-- The canonical answer-object text `{"answer":"<a>"}`. -/
def answerObj (a : Str) : Str := str "\x7b\"answer\":\"" ++ a ++ str "\"\x7d"

/-- The JSON value parse of the answer object (with arbitrary trailing
input): one object with the single member `answer`. -/
theorem parseJValF_answerObj (a rest : Str) (fuel : ℕ)
    (ha : ∀ c ∈ a, c ≠ '"' ∧ c ≠ '\\' ∧ 0x20 ≤ c.toNat) :
    parseJValF (fuel + 3) (answerObj a ++ rest) =
      some (JVal.jobj [(str "answer", JVal.jstr a)], rest) := by
  have hstr2 : parseJStr (a ++ ('"' :: '\x7d' :: rest)) =
      some (a, '\x7d' :: rest) := by
    show parseJStrF ((a ++ ('"' :: '\x7d' :: rest)).length + 1)
      (a ++ ('"' :: '\x7d' :: rest)) = some (a, '\x7d' :: rest)
    exact parseJStrF_plain a _ _ (by rw [List.length_append]; omega) ha
  have hval2 : parseJValF (fuel + 1)
      ('"' :: (a ++ ('"' :: '\x7d' :: rest))) =
      some (JVal.jstr a, '\x7d' :: rest) := by
    show (parseJStr (a ++ ('"' :: '\x7d' :: rest))).map
      (fun p => (JVal.jstr p.1, p.2)) = some (JVal.jstr a, '\x7d' :: rest)
    rw [hstr2]
    rfl
  have hstr1 : parseJStr (str "answer\":\"" ++ (a ++ ('"' :: '\x7d' :: rest)))
      = some (str "answer", ':' :: '"' :: (a ++ ('"' :: '\x7d' :: rest))) := by
    show parseJStrF
      ((str "answer\":\"" ++ (a ++ ('"' :: '\x7d' :: rest))).length + 1)
      (str "answer\":\"" ++ (a ++ ('"' :: '\x7d' :: rest))) = _
    rw [show (str "answer\":\"" ++ (a ++ ('"' :: '\x7d' :: rest)) : Str) =
      str "answer" ++ ('"' :: (':' :: '"' :: (a ++ ('"' :: '\x7d' :: rest))))
      from rfl]
    exact parseJStrF_plain (str "answer") _ _
      (by rw [List.length_append]; omega) (by decide)
  have hmem : parseJMembersF (fuel + 2)
      ('"' :: (str "answer\":\"" ++ (a ++ ('"' :: '\x7d' :: rest)))) =
      some ([(str "answer", JVal.jstr a)], rest) := by
    show (match parseJStr
        (str "answer\":\"" ++ (a ++ ('"' :: '\x7d' :: rest))) with
      | some (key, r1) =>
          match skipJsonWs r1 with
          | ':' :: r2 =>
              match parseJValF (fuel + 1) (skipJsonWs r2) with
              | some (v, r3) =>
                  match skipJsonWs r3 with
                  | ',' :: r4 =>
                      match parseJMembersF (fuel + 1) (skipJsonWs r4) with
                      | some (fs, r5) => some ((key, v) :: fs, r5)
                      | none => none
                  | '\x7d' :: r4 => some ([(key, v)], r4)
                  | _ => none
              | none => none
          | _ => none
      | none => none) = some ([(str "answer", JVal.jstr a)], rest)
    rw [hstr1]
    show (match parseJValF (fuel + 1)
        (skipJsonWs ('"' :: (a ++ ('"' :: '\x7d' :: rest)))) with
      | some (v, r3) =>
          match skipJsonWs r3 with
          | ',' :: r4 =>
              match parseJMembersF (fuel + 1) (skipJsonWs r4) with
              | some (fs, r5) => some ((str "answer", v) :: fs, r5)
              | none => none
          | '\x7d' :: r4 => some ([(str "answer", v)], r4)
          | _ => none
      | none => none) = some ([(str "answer", JVal.jstr a)], rest)
    rw [skipJsonWs_nonws '"' _ rfl, hval2]
    rfl
  have hobj : answerObj a ++ rest =
      '\x7b' :: ('"' :: (str "answer\":\"" ++ (a ++ ('"' :: '\x7d' :: rest))))
      := by
    show ((str "\x7b\"answer\":\"" ++ a) ++ str "\"\x7d") ++ rest = _
    rw [List.append_assoc, List.append_assoc]
    rfl
  rw [hobj]
  have h1 : parseJValF (fuel + 3)
      ('\x7b' ::
        ('"' :: (str "answer\":\"" ++ (a ++ ('"' :: '\x7d' :: rest))))) =
      match parseJMembersF (fuel + 2)
          ('"' :: (str "answer\":\"" ++ (a ++ ('"' :: '\x7d' :: rest)))) with
      | some (fs, r2) => some (JVal.jobj fs, r2)
      | none => none := rfl
  rw [h1, hmem]

/-- `JSON.parse` of the answer object followed by arbitrary input:
succeeds exactly when the trailing input is whitespace. -/
theorem jsonParse_answerObj (a rest : Str)
    (ha : ∀ c ∈ a, c ≠ '"' ∧ c ≠ '\\' ∧ 0x20 ≤ c.toNat) :
    jsonParse (answerObj a ++ rest) =
      if (skipJsonWs rest).isEmpty then
        some (JVal.jobj [(str "answer", JVal.jstr a)])
      else none := by
  unfold jsonParse
  have hskip : skipJsonWs (answerObj a ++ rest) = answerObj a ++ rest := rfl
  rw [hskip]
  have hfa : 2 * (answerObj a ++ rest).length + 8 =
      (2 * (answerObj a ++ rest).length + 5) + 3 := by omega
  rw [hfa, parseJValF_answerObj a rest _ ha]

/-- The reversed answer object: last character `\x7d`, then `"`. -/
theorem answerObj_reverse (a : Str) :
    (answerObj a).reverse =
      '\x7d' :: ('"' :: (a.reverse ++ (str "\x7b\"answer\":\"").reverse)) := by
  show ((str "\x7b\"answer\":\"" ++ a) ++ str "\"\x7d").reverse = _
  rw [List.reverse_append, List.reverse_append]
  rfl

/-- Length of the answer object. -/
theorem answerObj_length (a : Str) : (answerObj a).length = a.length + 13 := by
  show ((str "\x7b\"answer\":\"" ++ a) ++ str "\"\x7d").length = _
  rw [List.length_append, List.length_append,
    show (str "\x7b\"answer\":\"").length = 11 from rfl,
    show (str "\"\x7d").length = 2 from rfl]
  omega

/-- `parseAnswerJson` on the plain answer object: the slice from the
first `\x7b` to the last `\x7d` is the whole object, which parses. -/
theorem parseAnswerJson_answerObj (a : Str) (hne : a ≠ [])
    (htrim : jsTrim a = a)
    (ha : ∀ c ∈ a, c ≠ '"' ∧ c ≠ '\\' ∧ 0x20 ≤ c.toNat) :
    parseAnswerJson (answerObj a) =
      some { answer := a, followups := [] } := by
  have hparse1 : jsonParse (answerObj a) =
      some (JVal.jobj [(str "answer", JVal.jstr a)]) := by
    have h := jsonParse_answerObj a [] ha
    rw [List.append_nil] at h
    simpa using h
  have haie : a.isEmpty = false := by
    cases a with
    | nil => exact absurd rfl hne
    | cons c t => rfl
  unfold parseAnswerJson
  rw [show (answerObj a).isEmpty = false from by
    rw [show answerObj a =
      '\x7b' :: (str "\"answer\":\"" ++ (a ++ str "\"\x7d")) from rfl]
    rfl]
  simp only [Bool.false_eq_true, if_false]
  rw [show idxOfChar '\x7b' (answerObj a) = some 0 from by
    rw [show answerObj a =
      '\x7b' :: (str "\"answer\":\"" ++ (a ++ str "\"\x7d")) from rfl,
      idxOfChar_cons_self]]
  rw [show lastIdxOfChar '\x7d' (answerObj a) =
      some ((answerObj a).length - 1) from by
    unfold lastIdxOfChar
    rw [answerObj_reverse, idxOfChar_cons_self]
    simp]
  dsimp only
  rw [if_neg (by rw [answerObj_length]; omega)]
  try dsimp only
  rw [List.drop_zero,
    show (answerObj a).length - 1 + 1 = (answerObj a).length from by
      rw [answerObj_length]; omega,
    List.take_length, hparse1]
  dsimp only
  rw [show getField [(str "answer", JVal.jstr a)] (str "answer") =
    some (JVal.jstr a) from rfl]
  dsimp only
  rw [show jsCoerceStr (JVal.jstr a) = a from by
    unfold jsCoerceStr
    rw [show jsTruthy (JVal.jstr a) = !a.isEmpty from rfl, haie]
    rfl]
  rw [htrim, haie]
  simp only [Bool.false_eq_true, if_false]
  rfl

/-- `parseAnswerJson` on the answer object followed by a stray closing
brace: the slice runs to the stray brace and `JSON.parse` rejects it. -/
theorem parseAnswerJson_answerObj_stray (a : Str)
    (ha : ∀ c ∈ a, c ≠ '"' ∧ c ≠ '\\' ∧ 0x20 ≤ c.toNat) :
    parseAnswerJson (answerObj a ++ str "\x7d") = none := by
  have hparse2 : jsonParse (answerObj a ++ str "\x7d") = none := by
    have h := jsonParse_answerObj a (str "\x7d") ha
    rw [h]
    rfl
  have hlen2 : (answerObj a ++ str "\x7d").length = a.length + 14 := by
    rw [List.length_append, answerObj_length,
      show (str "\x7d").length = 1 from rfl]
  unfold parseAnswerJson
  rw [show (answerObj a ++ str "\x7d").isEmpty = false from by
    rw [show answerObj a ++ str "\x7d" =
      '\x7b' :: ((str "\"answer\":\"" ++ a ++ str "\"\x7d") ++ str "\x7d")
      from rfl]
    rfl]
  simp only [Bool.false_eq_true, if_false]
  rw [show idxOfChar '\x7b' (answerObj a ++ str "\x7d") = some 0 from by
    rw [show answerObj a ++ str "\x7d" =
      '\x7b' :: ((str "\"answer\":\"" ++ a ++ str "\"\x7d") ++ str "\x7d")
      from rfl,
      idxOfChar_cons_self]]
  rw [show lastIdxOfChar '\x7d' (answerObj a ++ str "\x7d") =
      some ((answerObj a ++ str "\x7d").length - 1) from by
    unfold lastIdxOfChar
    rw [List.reverse_append, answerObj_reverse,
      show (str "\x7d").reverse = ['\x7d'] from rfl]
    rw [show (['\x7d'] : Str) ++
        '\x7d' :: ('"' :: (a.reverse ++ (str "\x7b\"answer\":\"").reverse)) =
      '\x7d' :: ('\x7d' :: ('"' ::
        (a.reverse ++ (str "\x7b\"answer\":\"").reverse))) from rfl,
      idxOfChar_cons_self]
    simp]
  dsimp only
  rw [if_neg (by rw [hlen2]; omega)]
  try dsimp only
  rw [List.drop_zero,
    show (answerObj a ++ str "\x7d").length - 1 + 1 =
      (answerObj a ++ str "\x7d").length from by rw [hlen2]; omega,
    List.take_length, hparse2]

/-- Claim C5 (amended): `parseAnswerJson` slices from the first `\x7b` to
the *last* `\x7d` (no brace-depth scan): for every plain answer body `a`
(nonempty, trim-fixed, no quote/backslash/control characters) the object
`\x7b"answer":"a"\x7d` parses to that answer with no followups, while the
same object followed by one stray unmatched closing brace fails and
returns `none`. -/
theorem C5_first_last_brace_slice (a : Str) (hne : a ≠ [])
    (htrim : jsTrim a = a)
    (ha : ∀ c ∈ a, c ≠ '"' ∧ c ≠ '\\' ∧ 0x20 ≤ c.toNat) :
    parseAnswerJson (answerObj a) =
      some { answer := a, followups := [] } ∧
    parseAnswerJson (answerObj a ++ str "\x7d") = none :=
  ⟨parseAnswerJson_answerObj a hne htrim ha,
   parseAnswerJson_answerObj_stray a ha⟩

/-- Witness for C5 (amended) at the body `"ok"`. -/
theorem C5_first_last_brace_slice_witness :
    ((str "ok" : Str) ≠ [] ∧ jsTrim (str "ok") = str "ok" ∧
      (∀ c ∈ (str "ok" : Str), c ≠ '"' ∧ c ≠ '\\' ∧ 0x20 ≤ c.toNat)) ∧
    parseAnswerJson (answerObj (str "ok")) =
      some { answer := str "ok", followups := [] } ∧
    parseAnswerJson (answerObj (str "ok") ++ str "\x7d") = none :=
  ⟨⟨by decide, by decide, by decide⟩,
   C5_first_last_brace_slice (str "ok") (by decide) (by decide) (by decide)⟩

end SimpleRag
